import Mathlib

/-! go-crud-employee: query construction and token handling

A shallow embedding of the request handlers of `handlers/employee.go` and of the
token manager of `utils/jwt.go`.

* Go `int` / `int64` values are `Int`; none of the arithmetic modelled here can
  leave the 64-bit range on inputs that are in range.
* `float64` values that reach the handlers come from JSON bodies, so they are
  finite; they are modelled by the rational number they denote (`ℚ`).
* `time.Time` is the number of nanoseconds since the Unix epoch, the clock reading
  `time.Now()` is an explicit argument.
* The relational store behind `database/sql` is an explicit state machine `DB σ`;
  every statement sent to it is recorded, in order, in the `log` of the `World`.
-/

namespace GoCrud

/-! ## Values and models (`models/employee.go`, `models/response.go`) -/

/-- Nanoseconds since the Unix epoch (`time.Time`). -/
abbrev Time := Int

/-- A value handed to `database/sql` as a bound statement argument. -/
inductive SqlArg where
  | str (s : String)
  | int (i : Int)
  | bool (b : Bool)
  | float (q : ℚ)
  | time (t : Time)
  | nullStr (s : Option String)
  | nullFloat (q : Option ℚ)
  deriving DecidableEq

/-- `models.Employee`; `sql.NullString` and `sql.NullFloat64` are options. -/
structure Employee where
  ID : Int
  NIP : String
  Name : String
  Email : String
  Phone : Option String
  Position : String
  Department : String
  Salary : Option ℚ
  HireDate : Time
  IsActive : Bool
  CreatedAt : Time
  UpdatedAt : Time
  deriving DecidableEq

/-- `models.UpdateEmployeeRequest`; the `*bool` is an option. -/
structure UpdateEmployeeRequest where
  Name : String
  Email : String
  Phone : String
  Position : String
  Department : String
  Salary : ℚ
  IsActive : Option Bool
  deriving DecidableEq

/-- `models.EmployeeFilter`; the `*bool` is an option. -/
structure EmployeeFilter where
  Department : String
  Position : String
  IsActive : Option Bool
  Search : String
  Limit : Int
  Offset : Int
  deriving DecidableEq

/-- The string `t.Format(layout)`, kept symbolic: the layout and the instant. -/
structure Formatted where
  layout : String
  t : Time
  deriving DecidableEq

/-- `models.EmployeeResponse`. -/
structure EmployeeResponse where
  ID : Int
  NIP : String
  Name : String
  Email : String
  Phone : String
  Position : String
  Department : String
  Salary : ℚ
  HireDate : Formatted
  IsActive : Bool
  CreatedAt : Formatted
  UpdatedAt : Formatted
  deriving DecidableEq

/-- `models.EmployeeListResponse`. -/
structure EmployeeListResponse where
  Employees : List EmployeeResponse
  Total : Int
  Limit : Int
  Offset : Int
  deriving DecidableEq

/-- `(*Employee).ToResponse`. -/
def Employee.ToResponse (e : Employee) : EmployeeResponse :=
  let phone := match e.Phone with
    | some s => s
    | none => ""
  let salary := match e.Salary with
    | some q => q
    | none => 0
  { ID := e.ID
    NIP := e.NIP
    Name := e.Name
    Email := e.Email
    Phone := phone
    Position := e.Position
    Department := e.Department
    Salary := salary
    HireDate := ⟨"2006-01-02", e.HireDate⟩
    IsActive := e.IsActive
    CreatedAt := ⟨"2006-01-02 15:04:05", e.CreatedAt⟩
    UpdatedAt := ⟨"2006-01-02 15:04:05", e.UpdatedAt⟩ }

/-- `models.User`. -/
structure User where
  ID : Int
  Username : String
  Email : String
  PasswordHash : String
  CreatedAt : Time
  UpdatedAt : Time
  deriving DecidableEq

/-- A claim value as `encoding/json` stores it in an `interface{}`; arrays and objects
are not told apart. -/
inductive ClaimValue where
  | number (x : ℚ)
  | string (s : String)
  | bool (b : Bool)
  | null
  | composite
  deriving DecidableEq

/-- `jwt.MapClaims`. -/
abbrev MapClaims := List (String × ClaimValue)

/-- The third segment of a compact token: an HMAC computed with `key` over the header
(`alg`) and the claims, or any other bytes. -/
inductive Signature where
  | hmac (alg : String) (key : String) (claims : MapClaims)
  | other (n : Nat)
  deriving DecidableEq

/-- A token string: not a well-formed compact token, or its decoded parts; `alg` is
`none` when the header has no string `alg`. -/
inductive TokenString where
  | malformed
  | compact (alg : Option String) (claims : MapClaims) (sig : Signature)
  deriving DecidableEq

/-- `models.UserInfo`. -/
structure UserInfo where
  ID : Int
  Username : String
  Email : String
  deriving DecidableEq

/-- `(*User).ToUserInfo`. -/
def User.ToUserInfo (u : User) : UserInfo :=
  { ID := u.ID, Username := u.Username, Email := u.Email }

/-- `models.LoginRequest`. -/
structure LoginRequest where
  Username : String
  Password : String
  deriving DecidableEq

/-- `models.LoginResponse`. -/
structure LoginResponse where
  Token : TokenString
  User : UserInfo
  ExpiresAt : Time
  deriving DecidableEq

/-- The `interface{}` payload of an `APIResponse`. -/
inductive ResponseData where
  | none
  | employee (e : EmployeeResponse)
  | employeeList (l : EmployeeListResponse)
  | userInfo (u : UserInfo)
  | login (l : LoginResponse)
  deriving DecidableEq

/-- `models.APIResponse`. -/
structure APIResponse where
  Success : Bool
  Message : String
  Data : ResponseData
  Error : String
  deriving DecidableEq

/-- `models.NewSuccessResponse`. -/
def NewSuccessResponse (message : String) (data : ResponseData) : APIResponse :=
  { Success := true, Message := message, Data := data, Error := "" }

/-- `models.NewErrorResponse`. -/
def NewErrorResponse (message : String) (err : String) : APIResponse :=
  { Success := false, Message := message, Data := .none, Error := err }

/-- What `c.JSON(status, body)` writes. -/
structure HTTPResponse where
  status : Nat
  body : APIResponse
  deriving DecidableEq

/-! ## The store behind `database/sql` -/

/-- A statement as sent to the store: its text and its bound arguments. -/
structure Stmt where
  text : String
  args : List SqlArg
  deriving DecidableEq

/-- The error of `QueryRow(...).Scan(...)`: `sql.ErrNoRows` or anything else. -/
inductive RowErr where
  | noRows
  | other (msg : String)
  deriving DecidableEq

/-- `err.Error()`. -/
def RowErr.Error : RowErr → String
  | .noRows => "sql: no rows in result set"
  | .other msg => msg

/-- The outcome of iterating `*sql.Rows`: each row scanned (or its scan error), in
order, and the final `rows.Err()`. -/
structure EmployeeRows where
  scans : List (Except String Employee)
  err : Option String

/-- The store as the handlers see it, over an arbitrary store state `σ`. -/
structure DB (σ : Type) where
  /-- The result of `QueryRow(text, args...).Scan(&n)` for an `int`. -/
  QueryRowInt : Stmt → σ → Except RowErr Int × σ
  /-- The result of `QueryRow(text, args...).Scan(&e.ID, ..., &e.UpdatedAt)`. -/
  QueryRowEmployee : Stmt → σ → Except RowErr Employee × σ
  /-- The result of `QueryRow(text, args...).Scan(&u.ID, ...)` into a `models.User`; the
  fields a statement does not select keep their zero value. -/
  QueryRowUser : Stmt → σ → Except RowErr User × σ
  /-- The result of `Query(text, args...)`. -/
  Query : Stmt → σ → Except String EmployeeRows × σ
  /-- The result of `Exec(text, args...)`. -/
  Exec : Stmt → σ → Option String × σ

/-- The store state together with the statements sent so far, oldest first. -/
structure World (σ : Type) where
  store : σ
  log : List Stmt

/-- Send a count query, recording it. -/
def World.queryRowInt {σ : Type} (db : DB σ) (text : String) (args : List SqlArg)
    (w : World σ) : Except RowErr Int × World σ :=
  let r := db.QueryRowInt ⟨text, args⟩ w.store
  (r.1, { store := r.2, log := w.log ++ [⟨text, args⟩] })

/-- Send a single-row employee query, recording it. -/
def World.queryRowEmployee {σ : Type} (db : DB σ) (text : String) (args : List SqlArg)
    (w : World σ) : Except RowErr Employee × World σ :=
  let r := db.QueryRowEmployee ⟨text, args⟩ w.store
  (r.1, { store := r.2, log := w.log ++ [⟨text, args⟩] })

/-- Send a single-row user query, recording it. -/
def World.queryRowUser {σ : Type} (db : DB σ) (text : String) (args : List SqlArg)
    (w : World σ) : Except RowErr User × World σ :=
  let r := db.QueryRowUser ⟨text, args⟩ w.store
  (r.1, { store := r.2, log := w.log ++ [⟨text, args⟩] })

/-- Send a multi-row query, recording it. -/
def World.query {σ : Type} (db : DB σ) (text : String) (args : List SqlArg)
    (w : World σ) : Except String EmployeeRows × World σ :=
  let r := db.Query ⟨text, args⟩ w.store
  (r.1, { store := r.2, log := w.log ++ [⟨text, args⟩] })

/-- Send a statement without result rows, recording it. -/
def World.exec {σ : Type} (db : DB σ) (text : String) (args : List SqlArg)
    (w : World σ) : Option String × World σ :=
  let r := db.Exec ⟨text, args⟩ w.store
  (r.1, { store := r.2, log := w.log ++ [⟨text, args⟩] })

/-! ## `EmployeeHandler.GetEmployees` (`handlers/employee.go`) -/

/-- The "Set default values" block: the three `if` statements, in order. -/
def setDefaults (filter : EmployeeFilter) : EmployeeFilter :=
  let filter := if filter.Limit ≤ 0 then { filter with Limit := 10 } else filter
  let filter := if filter.Limit > 100 then { filter with Limit := 100 } else filter
  let filter := if filter.Offset < 0 then { filter with Offset := 0 } else filter
  filter

/-- The three accumulators of the "Build query" block. -/
structure QueryState where
  conditions : List String
  args : List SqlArg
  argIndex : Nat
  deriving DecidableEq

/-- `fmt.Sprintf("$%d", n)`. -/
def dollar (n : Nat) : String := "$" ++ toString n

/-- The `if filter.Department != ""` block. -/
def addDepartment (filter : EmployeeFilter) (s : QueryState) : QueryState :=
  if filter.Department ≠ "" then
    { conditions := s.conditions ++ ["department = " ++ dollar s.argIndex]
      args := s.args ++ [.str filter.Department]
      argIndex := s.argIndex + 1 }
  else s

/-- The `if filter.Position != ""` block. -/
def addPosition (filter : EmployeeFilter) (s : QueryState) : QueryState :=
  if filter.Position ≠ "" then
    { conditions := s.conditions ++ ["position = " ++ dollar s.argIndex]
      args := s.args ++ [.str filter.Position]
      argIndex := s.argIndex + 1 }
  else s

/-- The `if filter.IsActive != nil` block. -/
def addIsActive (filter : EmployeeFilter) (s : QueryState) : QueryState :=
  match filter.IsActive with
  | some b =>
    { conditions := s.conditions ++ ["is_active = " ++ dollar s.argIndex]
      args := s.args ++ [.bool b]
      argIndex := s.argIndex + 1 }
  | none => s

/-- The `if filter.Search != ""` block. -/
def addSearch (filter : EmployeeFilter) (s : QueryState) : QueryState :=
  if filter.Search ≠ "" then
    let searchPattern := "%" ++ filter.Search ++ "%"
    { conditions := s.conditions ++
        ["(name ILIKE " ++ dollar s.argIndex ++ " OR email ILIKE " ++ dollar (s.argIndex + 1)
          ++ " OR nip ILIKE " ++ dollar (s.argIndex + 2) ++ ")"]
      args := s.args ++ [.str searchPattern, .str searchPattern, .str searchPattern]
      argIndex := s.argIndex + 3 }
  else s

/-- The accumulators after the four filter blocks, starting from
`conditions = nil`, `args = nil`, `argIndex = 1`. -/
def filterState (filter : EmployeeFilter) : QueryState :=
  addSearch filter (addIsActive filter (addPosition filter (addDepartment filter
    { conditions := [], args := [], argIndex := 1 })))

/-- The initial value of `baseQuery`. -/
def baseQuery0 : String :=
  "SELECT id, nip, name, email, phone, position, department, salary, hire_date, is_active, created_at, updated_at FROM employees"

/-- The initial value of `countQuery`. -/
def countQuery0 : String := "SELECT COUNT(*) FROM employees"

/-- The text appended to both queries by the `if len(conditions) > 0` block. -/
def whereClause (conditions : List String) : String :=
  if conditions.length > 0 then " WHERE " ++ " AND ".intercalate conditions else ""

/-- The two statements `GetEmployees` sends for a filter whose defaults are already
set: the count statement, and the page statement after "Add ordering and
pagination". -/
structure ListQueries where
  countQuery : String
  countArgs : List SqlArg
  baseQuery : String
  args : List SqlArg
  deriving DecidableEq

/-- The "Build query" and "Add ordering and pagination" blocks. -/
def buildListQueries (filter : EmployeeFilter) : ListQueries :=
  let s := filterState filter
  let baseQuery := baseQuery0 ++ whereClause s.conditions
  let countQuery := countQuery0 ++ whereClause s.conditions
  let baseQuery := baseQuery ++ " ORDER BY created_at DESC"
  let baseQuery := baseQuery ++ (" LIMIT " ++ dollar s.argIndex ++ " OFFSET " ++ dollar (s.argIndex + 1))
  { countQuery := countQuery
    countArgs := s.args
    baseQuery := baseQuery
    args := s.args ++ [.int filter.Limit, .int filter.Offset] }

/-- The `for rows.Next()` loop: scanned rows are converted and appended until a scan
fails. -/
def scanAll : List (Except String Employee) → List EmployeeResponse →
    Except String (List EmployeeResponse)
  | [], employees => .ok employees
  | .error e :: _, _ => .error e
  | .ok emp :: rest, employees => scanAll rest (employees ++ [emp.ToResponse])

/-- `GetEmployees`; `bound` is the outcome of `c.ShouldBindQuery(&filter)`. -/
def GetEmployees {σ : Type} (db : DB σ) (bound : Except String EmployeeFilter)
    (w : World σ) : HTTPResponse × World σ :=
  match bound with
  | .error e => (⟨400, NewErrorResponse "Invalid query parameters" e⟩, w)
  | .ok filter =>
    let filter := setDefaults filter
    let q := buildListQueries filter
    match World.queryRowInt db q.countQuery q.countArgs w with
    | (.error err, w) => (⟨500, NewErrorResponse "Database error" err.Error⟩, w)
    | (.ok total, w) =>
      match World.query db q.baseQuery q.args w with
      | (.error err, w) => (⟨500, NewErrorResponse "Database error" err⟩, w)
      | (.ok rows, w) =>
        match scanAll rows.scans [] with
        | .error err => (⟨500, NewErrorResponse "Database error" err⟩, w)
        | .ok employees =>
          match rows.err with
          | some err => (⟨500, NewErrorResponse "Database error" err⟩, w)
          | none =>
            let response : EmployeeListResponse :=
              { Employees := employees, Total := total, Limit := filter.Limit,
                Offset := filter.Offset }
            (⟨200, NewSuccessResponse "Employees retrieved successfully"
              (.employeeList response)⟩, w)

/-! ## `EmployeeHandler.UpdateEmployee` (`handlers/employee.go`) -/

/-- `strconv.Atoi`: an optional sign, then one or more decimal digits, within the
64-bit range. -/
def Atoi (s : String) : Option Int :=
  let cs := s.toList
  let signed : Bool × List Char := match cs with
    | '-' :: r => (true, r)
    | '+' :: r => (false, r)
    | _ => (false, cs)
  let ds := signed.2
  if ds = [] ∨ ¬ (ds.all Char.isDigit = true) then none
  else
    let n : Int := ds.foldl (fun acc c => acc * 10 + ((c.toNat : Int) - 48)) 0
    let v : Int := if signed.1 then -n else n
    if v < -(2 ^ 63) ∨ v ≥ 2 ^ 63 then none else some v

/-- The text of the existence check. -/
def existsQuery : String := "SELECT COUNT(*) FROM employees WHERE id = $1"

/-- The text of the e-mail uniqueness check of `UpdateEmployee`. -/
def emailOtherQuery : String := "SELECT COUNT(*) FROM employees WHERE email = $1 AND id != $2"

/-- The empty accumulators: `setParts = nil`, `args = nil`, `argIndex = 1`. -/
def QueryState.init : QueryState := { conditions := [], args := [], argIndex := 1 }

/-- One `setParts = append(...); args = append(...); argIndex++` step. -/
def QueryState.assign (s : QueryState) (column : String) (value : SqlArg) : QueryState :=
  { conditions := s.conditions ++ [column ++ " = " ++ dollar s.argIndex]
    args := s.args ++ [value]
    argIndex := s.argIndex + 1 }

/-- The `if req.Name != ""` block. -/
def setName (req : UpdateEmployeeRequest) (s : QueryState) : QueryState :=
  if req.Name ≠ "" then s.assign "name" (.str req.Name) else s

/-- The assignment at the end of the `if req.Email != ""` block. -/
def setEmail (req : UpdateEmployeeRequest) (s : QueryState) : QueryState :=
  s.assign "email" (.str req.Email)

/-- The `if req.Phone != ""` block. -/
def setPhone (req : UpdateEmployeeRequest) (s : QueryState) : QueryState :=
  if req.Phone ≠ "" then s.assign "phone" (.str req.Phone) else s

/-- The `if req.Position != ""` block. -/
def setPosition (req : UpdateEmployeeRequest) (s : QueryState) : QueryState :=
  if req.Position ≠ "" then s.assign "position" (.str req.Position) else s

/-- The `if req.Department != ""` block. -/
def setDepartment (req : UpdateEmployeeRequest) (s : QueryState) : QueryState :=
  if req.Department ≠ "" then s.assign "department" (.str req.Department) else s

/-- The `if req.Salary > 0` block. -/
def setSalary (req : UpdateEmployeeRequest) (s : QueryState) : QueryState :=
  if req.Salary > 0 then s.assign "salary" (.float req.Salary) else s

/-- The `if req.IsActive != nil` block. -/
def setIsActive (req : UpdateEmployeeRequest) (s : QueryState) : QueryState :=
  match req.IsActive with
  | some b => s.assign "is_active" (.bool b)
  | none => s

/-- The column list every employee statement returns. -/
def returningColumns : String :=
  "id, nip, name, email, phone, position, department, salary, hire_date, is_active, created_at, updated_at"

/-- `UpdateEmployee` from the `if req.Phone != ""` block to the end; `s` holds the
accumulators left by the name and e-mail blocks. -/
def updateAfterEmail {σ : Type} (db : DB σ) (now : Time) (id : Int)
    (req : UpdateEmployeeRequest) (s : QueryState) (w : World σ) : HTTPResponse × World σ :=
  let s := setPhone req s
  let s := setPosition req s
  let s := setDepartment req s
  let s := setSalary req s
  let s := setIsActive req s
  if s.conditions.length = 0 then
    (⟨400, NewErrorResponse "No fields to update"
      "At least one field must be provided for update"⟩, w)
  else
    -- Add updated_at
    let s := s.assign "updated_at" (.time now)
    -- Add ID for WHERE clause
    let args := s.args ++ [.int id]
    let query := "UPDATE employees SET " ++ ", ".intercalate s.conditions ++ " WHERE id = "
      ++ dollar s.argIndex ++ " RETURNING " ++ returningColumns
    match World.queryRowEmployee db query args w with
    | (.error err, w) => (⟨500, NewErrorResponse "Failed to update employee" err.Error⟩, w)
    | (.ok employee, w) =>
      (⟨200, NewSuccessResponse "Employee updated successfully"
        (.employee employee.ToResponse)⟩, w)

/-- `UpdateEmployee`; `idParam` is `c.Param("id")`, `bound` the outcome of
`c.ShouldBindJSON(&req)` and `now` the reading of `time.Now()`. -/
def UpdateEmployee {σ : Type} (db : DB σ) (now : Time) (idParam : String)
    (bound : Except String UpdateEmployeeRequest) (w : World σ) : HTTPResponse × World σ :=
  match Atoi idParam with
  | none => (⟨400, NewErrorResponse "Invalid employee ID" "Employee ID must be a number"⟩, w)
  | some id =>
    match bound with
    | .error e => (⟨400, NewErrorResponse "Invalid request data" e⟩, w)
    | .ok req =>
      -- Check if employee exists
      match World.queryRowInt db existsQuery [.int id] w with
      | (.error err, w) => (⟨500, NewErrorResponse "Database error" err.Error⟩, w)
      | (.ok found, w) =>
        if found = 0 then
          (⟨404, NewErrorResponse "Employee not found"
            "Employee with the specified ID does not exist"⟩, w)
        else
          -- Build update query dynamically
          let s := setName req QueryState.init
          if req.Email ≠ "" then
            -- Check if email already exists for other employees
            match World.queryRowInt db emailOtherQuery [.str req.Email, .int id] w with
            | (.error err, w) => (⟨500, NewErrorResponse "Database error" err.Error⟩, w)
            | (.ok count, w) =>
              if count > 0 then
                (⟨409, NewErrorResponse "Email already exists"
                  "Another employee with this email already exists"⟩, w)
              else updateAfterEmail db now id req (setEmail req s) w
          else updateAfterEmail db now id req s w

/-! ## The token manager (`utils/jwt.go`, `models/user.go`)

`utils/jwt.go` calls `github.com/golang-jwt/jwt/v5` and, through it, `encoding/json`.
Neither is part of this repository; the definitions `float64OfInt` to `jwtParse` below
are a model of what those calls do, written from the behaviour of version 5 of the
library:

* a compact token is represented by what `Parser.ParseUnverified` decodes from it (the
  `alg` of the header, the claims, the signature), so encoding followed by decoding is
  the identity except on numbers, which `encoding/json` decodes to the nearest
  `float64`;
* an HMAC signature is symbolic: it verifies exactly when it was computed with the same
  key over the same header and claims;
* `Parse` runs, in this order, the decoding, the lookup of the signing method, the key
  function, the signature verification and the default claims validation (`exp` and
  `nbf`, each skipped when the claim is absent or equals `0`); the texts of the
  library's errors are abbreviated;
* the validator inside `Parse` and the "Check expiration" block of `ValidateToken` each
  read the clock, so `ValidateToken` takes two clock readings.
-/

/-- `models.JWTClaims`. -/
structure JWTClaims where
  UserID : Int
  Username : String
  Email : String
  Exp : Int
  Iat : Int
  deriving DecidableEq

/-- `utils.JWTManager`; `expiry` is a `time.Duration`, in nanoseconds. -/
structure JWTManager where
  secret : String
  expiry : Int
  deriving DecidableEq

/-- `t.Unix()`: whole seconds since the epoch, rounded down. -/
def unix (t : Time) : Int := t / 1000000000

/-- The `float64` nearest to an integer (ties to even), as the integer it denotes:
what `encoding/json` decodes from the decimal digits of `n`. -/
def float64OfInt (n : Int) : Int :=
  let a := n.natAbs
  if a < 2 ^ 53 then n
  else
    let sh := Nat.log2 a - 52
    let q := a / 2 ^ sh
    let r := a % 2 ^ sh
    let half := 2 ^ (sh - 1)
    let q := if r > half ∨ (r = half ∧ q % 2 = 1) then q + 1 else q
    (if n < 0 then -1 else 1) * ((q * 2 ^ sh : Nat) : Int)

/-- The Go conversions `int64(x)` and `int(x)` of a `float64`: truncation towards zero;
outside the 64-bit range the result is the one of amd64. -/
def int64OfFloat (x : ℚ) : Int :=
  let t : Int := if 0 ≤ x then ⌊x⌋ else ⌈x⌉
  if -(2 ^ 63) ≤ t ∧ t < 2 ^ 63 then t else -(2 ^ 63)

/-- The signing methods the library registers. -/
inductive SigningMethod where
  | HMAC (name : String)
  | RSA (name : String)
  | RSAPSS (name : String)
  | ECDSA (name : String)
  | Ed25519
  | none
  deriving DecidableEq

/-- `jwt.GetSigningMethod`. -/
def GetSigningMethod (alg : String) : Option SigningMethod :=
  if alg ∈ ["HS256", "HS384", "HS512"] then some (.HMAC alg)
  else if alg ∈ ["RS256", "RS384", "RS512"] then some (.RSA alg)
  else if alg ∈ ["PS256", "PS384", "PS512"] then some (.RSAPSS alg)
  else if alg ∈ ["ES256", "ES384", "ES512"] then some (.ECDSA alg)
  else if alg = "EdDSA" then some .Ed25519
  else if alg = "none" then some .none
  else Option.none

/-- `jwt.Token` as the key function and the caller of `Parse` see it; `alg` is
`Header["alg"]`. -/
structure Token where
  alg : String
  Method : SigningMethod
  Claims : MapClaims
  Signature : Signature
  Valid : Bool
  deriving DecidableEq

/-- `SigningMethod.Verify` with a `[]byte` key: only an HMAC method accepts such a key,
and then the signature must be the HMAC under that key. -/
def SigningMethod.Verify (m : SigningMethod) (alg : String) (claims : MapClaims)
    (sig : Signature) (key : String) : Bool :=
  match m with
  | .HMAC _ => decide (sig = Signature.hmac alg key claims)
  | _ => false

/-- The constant `unixToInternal` of package `time`: the seconds from January 1 of
year 1 to the epoch. A `time.Time` without monotonic reading keeps its seconds since
year 1 in an `int64`. -/
def unixToInternal : Int := 62135596800

/-- The value an `int64` holds after an addition or subtraction with result `n`: Go
integer arithmetic wraps around. -/
def wrapInt64 (n : Int) : Int := (n + 2 ^ 63) % 2 ^ 64 - 2 ^ 63

/-- The instant of `newNumericDateFromSeconds(f).Time`, in nanoseconds since the epoch:
`math.Modf` splits `f`, `time.Unix(int64(round), int64(frac*1e9))` borrows a second for
a negative fraction and adds `unixToInternal` in `int64`, and `NewNumericDate` truncates
to the second. A date beyond the range of `time.Time` wraps around to an instant far in
the past. Of `int64(frac*1e9)` only the sign survives the truncation, and it is the
sign of the exact product. -/
def newNumericDateFromSeconds (f : ℚ) : Time :=
  let round : Int := if 0 ≤ f then ⌊f⌋ else ⌈f⌉
  let frac : ℚ := f - round
  let sec := int64OfFloat round
  let nsec := int64OfFloat (frac * 1000000000)
  let sec := if nsec < 0 then wrapInt64 (sec - 1) else sec
  (wrapInt64 (sec + unixToInternal) - unixToInternal) * 1000000000

/-- `MapClaims.parseNumericDate`: the instant of a numeric date claim; `ok none` when
the claim is absent or `0`, an error when it is not a number. -/
def parseNumericDate (m : MapClaims) (key : String) : Except String (Option Time) :=
  match m.lookup key with
  | Option.none => .ok Option.none
  | some (.number x) =>
    if x = 0 then .ok Option.none else .ok (some (newNumericDateFromSeconds x))
  | some _ => .error (key ++ " is invalid")

/-- `Validator.verifyExpiresAt` for an optional claim: `now.Before(exp)` must hold. -/
def verifyExpiresAt (m : MapClaims) (now : Time) : Option String :=
  match parseNumericDate m "exp" with
  | .error e => some ("invalid type for claim: " ++ e)
  | .ok Option.none => Option.none
  | .ok (some t) => if now < t then Option.none else some "token is expired"

/-- `Validator.verifyNotBefore` for an optional claim: `now.Before(nbf)` must fail. -/
def verifyNotBefore (m : MapClaims) (now : Time) : Option String :=
  match parseNumericDate m "nbf" with
  | .error e => some ("invalid type for claim: " ++ e)
  | .ok Option.none => Option.none
  | .ok (some t) => if now < t then some "token is not valid yet" else Option.none

/-- `joinErrors`: `nil` for no error, otherwise the messages joined by `", "`. -/
def joinErrors (errs : List String) : Option String :=
  match errs with
  | [] => Option.none
  | _ => some (", ".intercalate errs)

/-- `Validator.Validate` with the default options, at the clock reading `now`: the
expiry and the not-before checks are both made and their failures collected. -/
def validateClaims (m : MapClaims) (now : Time) : Option String :=
  joinErrors ((verifyExpiresAt m now).toList ++ (verifyNotBefore m now).toList)

/-- `jwt.Parse(tokenString, keyFunc)`, with the clock reading `now` of its validator. -/
def jwtParse (tokenString : TokenString) (keyFunc : Token → Except String String)
    (now : Time) : Except String Token :=
  match tokenString with
  | .malformed => .error "token is malformed"
  | .compact Option.none _ _ => .error "token is unverifiable: signing method (alg) is unspecified"
  | .compact (some alg) claims sig =>
    match GetSigningMethod alg with
    | Option.none => .error "token is unverifiable: signing method (alg) is unavailable"
    | some method =>
      let token : Token :=
        { alg := alg, Method := method, Claims := claims, Signature := sig, Valid := false }
      match keyFunc token with
      | .error e => .error ("token is unverifiable: error while executing keyfunc: " ++ e)
      | .ok key =>
        if method.Verify alg claims sig key = false then
          .error "token signature is invalid: signature is invalid"
        else
          match validateClaims claims now with
          | some e => .error ("token has invalid claims: " ++ e)
          | Option.none => .ok { token with Valid := true }

/-- `token.SignedString(key)` for `jwt.NewWithClaims(jwt.SigningMethodHS256, claims)`
and a `[]byte` key: it does not fail. -/
def SignedStringHS256 (claims : MapClaims) (key : String) : Except String TokenString :=
  .ok (.compact (some "HS256") claims (.hmac "HS256" key claims))

/-- `GenerateToken`; `now` is the reading of `time.Now()`. The integer claims appear in
the token as the numbers `encoding/json` decodes from their digits. -/
def GenerateToken (j : JWTManager) (now : Time) (user : User) :
    Except String (TokenString × Time) :=
  let expiresAt := now + j.expiry
  let claims : JWTClaims :=
    { UserID := user.ID
      Username := user.Username
      Email := user.Email
      Exp := unix expiresAt
      Iat := unix now }
  let mapClaims : MapClaims :=
    [ ("user_id", .number (float64OfInt claims.UserID)),
      ("username", .string claims.Username),
      ("email", .string claims.Email),
      ("exp", .number (float64OfInt claims.Exp)),
      ("iat", .number (float64OfInt claims.Iat)) ]
  match SignedStringHS256 mapClaims j.secret with
  | .error err => .error ("failed to sign token: " ++ err)
  | .ok tokenString => .ok (tokenString, expiresAt)

/-- The key function `ValidateToken` hands to `jwt.Parse`. -/
def keyFunc (j : JWTManager) (token : Token) : Except String String :=
  match token.Method with
  | .HMAC _ => .ok j.secret
  | _ => .error ("unexpected signing method: " ++ token.alg)

/-- The type assertion `claims[key].(float64)`. -/
def claimFloat (claims : MapClaims) (key : String) : Option ℚ :=
  match claims.lookup key with
  | some (.number x) => some x
  | _ => Option.none

/-- The type assertion `claims[key].(string)`. -/
def claimString (claims : MapClaims) (key : String) : Option String :=
  match claims.lookup key with
  | some (.string s) => some s
  | _ => Option.none

/-- The "Check expiration" and "Extract claims" blocks of `ValidateToken`, at the
clock reading `now`. -/
def extractClaims (now : Time) (claims : MapClaims) : Except String JWTClaims :=
  -- Check expiration
  match claimFloat claims "exp" with
  | Option.none => .error "invalid expiration claim"
  | some exp =>
    if unix now > int64OfFloat exp then .error "token has expired"
    else
      -- Extract claims
      match claimFloat claims "user_id" with
      | Option.none => .error "invalid user_id claim"
      | some userID =>
        match claimString claims "username" with
        | Option.none => .error "invalid username claim"
        | some username =>
          match claimString claims "email" with
          | Option.none => .error "invalid email claim"
          | some email =>
            match claimFloat claims "iat" with
            | Option.none => .error "invalid iat claim"
            | some iat =>
              .ok { UserID := int64OfFloat userID
                    Username := username
                    Email := email
                    Exp := int64OfFloat exp
                    Iat := int64OfFloat iat }

/-- `ValidateToken`; `nowParse` is the clock reading taken inside `jwt.Parse`, `now`
the later reading of the "Check expiration" block. -/
def ValidateToken (j : JWTManager) (nowParse now : Time) (tokenString : TokenString) :
    Except String JWTClaims :=
  match jwtParse tokenString (keyFunc j) nowParse with
  | .error err => .error ("failed to parse token: " ++ err)
  | .ok token =>
    if token.Valid = false then .error "invalid token"
    else extractClaims now token.Claims

/-- A token signed with the HS256 method under `key`, carrying `claims`. -/
def signedHS256 (key : String) (claims : MapClaims) : TokenString :=
  .compact (some "HS256") claims (.hmac "HS256" key claims)

/-- The issued token validates, at the very clock reading of its issue, to the claims
issued: user id, username and e-mail of the user, `iat` the Unix second of `now`,
`exp` the Unix second of `now + expiry`, which is also the Unix second of the returned
`expires_at`. -/
def RoundTripsAt (j : JWTManager) (now : Time) (user : User) : Prop :=
  ∃ tokenString expiresAt,
    GenerateToken j now user = .ok (tokenString, expiresAt)
      ∧ ValidateToken j now now tokenString
        = .ok { UserID := user.ID, Username := user.Username, Email := user.Email,
                Exp := unix (now + j.expiry), Iat := unix now }
      ∧ unix expiresAt = unix (now + j.expiry)

/-! ## The configured expiry (`config/config.go`) -/

/-- `getEnv`; `environ` is `os.Getenv`. -/
def getEnv (environ : String → String) (key defaultValue : String) : String :=
  if environ key ≠ "" then environ key else defaultValue

/-- The "Parse JWT expiry" block of `Load`, whose result becomes `JWT.Expiry` and then
`JWTManager.expiry`; `ParseDuration` is `time.ParseDuration`. -/
def loadJWTExpiry (environ : String → String) (ParseDuration : String → Except String Int) :
    Except String Int :=
  let jwtExpiryStr := getEnv environ "JWT_EXPIRY" "24h"
  match ParseDuration jwtExpiryStr with
  | .error err => .error ("invalid JWT_EXPIRY: " ++ err)
  | .ok jwtExpiry => .ok jwtExpiry

/-! ## Specification-side vocabulary for the list queries

The definitions of this section restate the wording of the specification; the
theorems below compare them with the embedding of the handler above. -/

/-- The four optional filters, in the order the specification lists them. -/
inductive FilterKind where
  | department
  | position
  | isActive
  | search
  deriving DecidableEq

/-- A filter is present when its string is non-empty, or its flag is non-nil. -/
def FilterKind.present (f : EmployeeFilter) : FilterKind → Bool
  | .department => decide (f.Department ≠ "")
  | .position => decide (f.Position ≠ "")
  | .isActive => f.IsActive.isSome
  | .search => decide (f.Search ≠ "")

/-- The number of arguments a predicate binds. -/
def FilterKind.arity : FilterKind → Nat
  | .search => 3
  | _ => 1

/-- The predicate of a filter whose first placeholder is `$i`: an equality for
department, position and is_active, a three-way `ILIKE` disjunction for search. -/
def FilterKind.predicate : FilterKind → Nat → String
  | .department, i => "department = " ++ dollar i
  | .position, i => "position = " ++ dollar i
  | .isActive, i => "is_active = " ++ dollar i
  | .search, i => "(name ILIKE " ++ dollar i ++ " OR email ILIKE " ++ dollar (i + 1)
      ++ " OR nip ILIKE " ++ dollar (i + 2) ++ ")"

/-- The values a predicate binds, in placeholder order. -/
def FilterKind.values (f : EmployeeFilter) : FilterKind → List SqlArg
  | .department => [.str f.Department]
  | .position => [.str f.Position]
  | .isActive => match f.IsActive with
    | some b => [.bool b]
    | none => []
  | .search => [.str ("%" ++ f.Search ++ "%"), .str ("%" ++ f.Search ++ "%"),
      .str ("%" ++ f.Search ++ "%")]

/-- The filters present in a request, in the fixed order. -/
def presentKinds (f : EmployeeFilter) : List FilterKind :=
  [FilterKind.department, .position, .isActive, .search].filter (FilterKind.present f)

/-- The predicates of a list of filters, numbered consecutively from `$i`. -/
def predicatesFrom : Nat → List FilterKind → List String
  | _, [] => []
  | i, k :: ks => k.predicate i :: predicatesFrom (i + k.arity) ks

/-- The number of arguments bound by a list of filters. -/
def totalArity (ks : List FilterKind) : Nat := (ks.map FilterKind.arity).sum

/-- The presence pattern of a filter: which of department, position, is_active and
search are given. -/
def EmployeeFilter.presence (f : EmployeeFilter) : Bool × Bool × Bool × Bool :=
  (decide (f.Department ≠ ""), decide (f.Position ≠ ""), f.IsActive.isSome,
    decide (f.Search ≠ ""))

/-- The text `needle` occurs somewhere inside the text `hay`. -/
def occursIn (needle hay : String) : Prop := needle.toList <:+: hay.toList

instance (needle hay : String) : Decidable (occursIn needle hay) := by
  unfold occursIn
  infer_instance

/-- The statements `GetEmployees` builds for a bound filter: defaults first, then
the two texts and argument lists. -/
def listQueries (filter : EmployeeFilter) : ListQueries :=
  buildListQueries (setDefaults filter)

/-! ## Specification-side vocabulary for the partial update -/

/-- The fields an update request provides, as (column, value) pairs in the fixed
order name, email, phone, position, department, salary, is_active: a string field is
provided when non-empty, the salary when positive, the flag when non-nil. -/
def providedAssignments (req : UpdateEmployeeRequest) : List (String × SqlArg) :=
  (if req.Name ≠ "" then [("name", SqlArg.str req.Name)] else [])
    ++ (if req.Email ≠ "" then [("email", SqlArg.str req.Email)] else [])
    ++ (if req.Phone ≠ "" then [("phone", SqlArg.str req.Phone)] else [])
    ++ (if req.Position ≠ "" then [("position", SqlArg.str req.Position)] else [])
    ++ (if req.Department ≠ "" then [("department", SqlArg.str req.Department)] else [])
    ++ (if req.Salary > 0 then [("salary", SqlArg.float req.Salary)] else [])
    ++ (match req.IsActive with
        | some b => [("is_active", SqlArg.bool b)]
        | none => [])

/-- The assignments `column = $i`, `column = $(i+1)`, ... of a list of fields. -/
def numberedAssignments : Nat → List (String × SqlArg) → List String
  | _, [] => []
  | i, f :: fs => (f.1 ++ " = " ++ dollar i) :: numberedAssignments (i + 1) fs

/-- The statement is an `UPDATE`. -/
def Stmt.isUpdate (st : Stmt) : Prop := "UPDATE".toList <+: st.text.toList

instance (st : Stmt) : Decidable st.isUpdate := by
  unfold Stmt.isUpdate
  infer_instance

/-- A store for examples: the existence check answers `found`, every other count
answers `count`, single-row statements answer `row`; its state is `Unit`. -/
def stubDB (found count : Int) (row : Except RowErr Employee) : DB Unit :=
  { QueryRowInt := fun st s => (.ok (if st.text = existsQuery then found else count), s)
    QueryRowEmployee := fun _ s => (row, s)
    QueryRowUser := fun _ s => (.error .noRows, s)
    Query := fun _ s => (.ok ⟨[], none⟩, s)
    Exec := fun _ s => (none, s) }

/-- The accumulators hold exactly the numbered assignments and values of `fs`. -/
def QueryState.Renders (s : QueryState) (fs : List (String × SqlArg)) : Prop :=
  s = { conditions := numberedAssignments 1 fs, args := fs.map Prod.snd,
        argIndex := fs.length + 1 }

/-- The e-mail block seen from the accumulators: the assignment is appended exactly
when the e-mail is non-empty (and the uniqueness check let the request through). -/
def emailStep (req : UpdateEmployeeRequest) (s : QueryState) : QueryState :=
  if req.Email ≠ "" then setEmail req s else s

/-- The existence check and the e-mail uniqueness check (when the request carries an
e-mail) both answer, the employee exists, and no other employee holds the e-mail. -/
def ReadsPass {σ : Type} (db : DB σ) (w : World σ) (id : Int) (req : UpdateEmployeeRequest) :
    Prop :=
  ∃ found, (db.QueryRowInt ⟨existsQuery, [.int id]⟩ w.store).1 = .ok found ∧ found ≠ 0
    ∧ (req.Email ≠ "" →
        ∃ count, (db.QueryRowInt ⟨emailOtherQuery, [.str req.Email, .int id]⟩
            (db.QueryRowInt ⟨existsQuery, [.int id]⟩ w.store).2).1 = .ok count
          ∧ ¬ count > 0)

/-- The `UPDATE` statement the specification describes for the provided fields `fs`:
the numbered assignments of `fs` followed by `updated_at`, the `WHERE` placeholder
after them, and the values followed by the id. -/
def updateStmt (fs : List (String × SqlArg)) (now : Time) (id : Int) : Stmt :=
  { text := "UPDATE employees SET "
      ++ ", ".intercalate (numberedAssignments 1 (fs ++ [("updated_at", SqlArg.time now)]))
      ++ " WHERE id = " ++ dollar (fs.length + 2) ++ " RETURNING " ++ returningColumns
    args := (fs ++ [("updated_at", SqlArg.time now)]).map Prod.snd ++ [SqlArg.int id] }

/-- The 400 response of an update without fields. -/
def noFieldsResponse : HTTPResponse :=
  ⟨400, NewErrorResponse "No fields to update" "At least one field must be provided for update"⟩

/-! ## Specification-side vocabulary for placeholders -/

/-- The number a string of decimal digits denotes. -/
def digitsValue (ds : List Char) : Nat :=
  ds.foldl (fun n c => 10 * n + (c.toNat - 48)) 0

/-- The numbers of the placeholders `$n` occurring in a text, in order of occurrence. -/
def placeholdersOf : List Char → List Nat
  | [] => []
  | c :: cs =>
    if c = '$' then digitsValue (cs.takeWhile Char.isDigit) :: placeholdersOf cs
    else placeholdersOf cs

/-- The numbers of the placeholders of a statement text. -/
def placeholders (text : String) : List Nat := placeholdersOf text.toList

/-! ## Specification-side vocabulary for the claim checks -/

/-- One of the five claims is missing or carries a value of the wrong type: `exp`,
`user_id` or `iat` is not a number, `username` or `email` is not a string. -/
def HasBadClaim (claims : MapClaims) : Prop :=
  claimFloat claims "exp" = Option.none ∨ claimFloat claims "user_id" = Option.none
    ∨ claimString claims "username" = Option.none ∨ claimString claims "email" = Option.none
    ∨ claimFloat claims "iat" = Option.none

/-- The token is within its validity period: the time validation of `jwt.Parse` (at the
reading `nowParse`) accepts the claims, and the reading `now` of the "Check expiration"
block is not past a numeric `exp`. -/
def TimeValid (claims : MapClaims) (nowParse now : Time) : Prop :=
  validateClaims claims nowParse = Option.none
    ∧ ∀ x, claimFloat claims "exp" = some x → ¬ unix now > int64OfFloat x

/-- A token signed with an HMAC method `alg` under `key`, carrying `claims`. -/
def signedHMAC (alg key : String) (claims : MapClaims) : TokenString :=
  .compact (some alg) claims (.hmac alg key claims)

/-! ## Password policy (`utils/password.go`) -/

/-- `IsValidPassword`; `len(password)` is the number of bytes of the string, which for
the UTF-8 strings decoded from a JSON body is `utf8ByteSize`. -/
def IsValidPassword (password : String) : Bool :=
  -- Minimum 6 characters
  if password.utf8ByteSize < 6 then false
  else true

/-! ## `AuthMiddleware.RequireAuth` (`middleware/auth.go`) -/

/-- The values `RequireAuth` stores in the request context with `c.Set`. -/
structure AuthContext where
  user_id : Int
  username : String
  email : String
  claims : JWTClaims
  deriving DecidableEq

/-- What the middleware does with a request: it answers and aborts the chain
(`c.JSON(...)`, `c.Abort()`), or it fills the context and runs the next handler
(`c.Next()`). -/
inductive MiddlewareOutcome where
  | abort (resp : HTTPResponse)
  | next (ctx : AuthContext)
  deriving DecidableEq

/-- `strings.HasPrefix(s, p)`. -/
def HasPrefix (s p : String) : Bool := decide (p.toList <+: s.toList)

/-- `strings.TrimPrefix(s, p)`. -/
def TrimPrefix (s p : String) : String :=
  if HasPrefix s p then String.mk (s.toList.drop p.length) else s

/-- The handler returned by `RequireAuth`; `authHeader` is
`c.GetHeader("Authorization")` (empty when the header is absent), `decode` reads a raw
token string as a compact token, `nowParse` and `now` are the clock readings of
`ValidateToken`. -/
def RequireAuth (j : JWTManager) (decode : String → TokenString) (nowParse now : Time)
    (authHeader : String) : MiddlewareOutcome :=
  if authHeader = "" then
    .abort ⟨401, NewErrorResponse "Authorization required" "Missing Authorization header"⟩
  -- Check if header starts with "Bearer "
  else if HasPrefix authHeader "Bearer " = false then
    .abort ⟨401, NewErrorResponse "Invalid authorization format"
      "Authorization header must start with 'Bearer '"⟩
  else
    -- Extract token
    let token := TrimPrefix authHeader "Bearer "
    if token = "" then
      .abort ⟨401, NewErrorResponse "Token required" "Empty token provided"⟩
    else
      -- Validate token
      match ValidateToken j nowParse now (decode token) with
      | .error err => .abort ⟨401, NewErrorResponse "Invalid token" err⟩
      | .ok claims =>
        .next { user_id := claims.UserID, username := claims.Username, email := claims.Email,
                claims := claims }

/-! ## `AuthHandler.Login` (`handlers/auth.go`, `utils/password.go`) -/

/-- `bcrypt.CompareHashAndPassword(hashedPassword, password)` of
`golang.org/x/crypto/bcrypt`, which is not part of this repository: `none` is the `nil`
error of a match. The handlers take it as an argument. -/
abbrev Bcrypt := String → String → Option String

/-- `CheckPassword`. -/
def CheckPassword (compare : Bcrypt) (password hashedPassword : String) : Option String :=
  compare hashedPassword password

/-- The text of the user lookup of `Login`. -/
def userByUsernameQuery : String :=
  "SELECT id, username, email, password_hash, created_at, updated_at \n\t\t\t  FROM users WHERE username = $1"

/-- `Login`; `bound` is the outcome of `c.ShouldBindJSON(&req)`, `now` the reading of
`time.Now()` in `GenerateToken`. -/
def Login {σ : Type} (db : DB σ) (compare : Bcrypt) (j : JWTManager) (now : Time)
    (bound : Except String LoginRequest) (w : World σ) : HTTPResponse × World σ :=
  match bound with
  | .error e => (⟨400, NewErrorResponse "Invalid request data" e⟩, w)
  | .ok req =>
    -- Find user by username
    match World.queryRowUser db userByUsernameQuery [.str req.Username] w with
    | (.error .noRows, w) =>
      (⟨401, NewErrorResponse "Authentication failed" "Invalid username or password"⟩, w)
    | (.error err, w) => (⟨500, NewErrorResponse "Database error" err.Error⟩, w)
    | (.ok user, w) =>
      -- Check password
      match CheckPassword compare req.Password user.PasswordHash with
      | some _ =>
        (⟨401, NewErrorResponse "Authentication failed" "Invalid username or password"⟩, w)
      | none =>
        -- Generate JWT token
        match GenerateToken j now user with
        | .error err => (⟨500, NewErrorResponse "Token generation failed" err⟩, w)
        | .ok (token, expiresAt) =>
          -- Return login response
          let response : LoginResponse :=
            { Token := token, User := user.ToUserInfo, ExpiresAt := expiresAt }
          (⟨200, NewSuccessResponse "Login successful" (.login response)⟩, w)

/-- A store for examples that answers every user lookup with `row`; its state is
`Unit`. -/
def userStubDB (row : Except RowErr User) : DB Unit :=
  { QueryRowInt := fun _ s => (.ok 0, s)
    QueryRowEmployee := fun _ s => (.error .noRows, s)
    QueryRowUser := fun _ s => (row, s)
    Query := fun _ s => (.ok ⟨[], none⟩, s)
    Exec := fun _ s => (none, s) }

/-! ## `EmployeeHandler.CreateEmployee` and `DeleteEmployee` (`handlers/employee.go`) -/

/-- `models.CreateEmployeeRequest`. -/
structure CreateEmployeeRequest where
  NIP : String
  Name : String
  Email : String
  Phone : String
  Position : String
  Department : String
  Salary : ℚ
  HireDate : String
  deriving DecidableEq

/-- The text of the NIP uniqueness check. -/
def nipCountQuery : String := "SELECT COUNT(*) FROM employees WHERE nip = $1"

/-- The text of the e-mail uniqueness check of `CreateEmployee`. -/
def emailCountQuery : String := "SELECT COUNT(*) FROM employees WHERE email = $1"

/-- The text of the insertion of `CreateEmployee`. -/
def insertEmployeeQuery : String :=
  "INSERT INTO employees (nip, name, email, phone, position, department, salary, hire_date, is_active, created_at, updated_at) \n\t\t\t  VALUES ($1, $2, $3, $4, $5, $6, $7, $8, $9, $10, $11) \n\t\t\t  RETURNING id, nip, name, email, phone, position, department, salary, hire_date, is_active, created_at, updated_at"

/-- `CreateEmployee`; `bound` is the outcome of `c.ShouldBindJSON(&req)`, `parseDate`
is `time.Parse("2006-01-02", _)` and `now` the reading of `time.Now()`. -/
def CreateEmployee {σ : Type} (db : DB σ) (parseDate : String → Except String Time)
    (now : Time) (bound : Except String CreateEmployeeRequest) (w : World σ) :
    HTTPResponse × World σ :=
  match bound with
  | .error e => (⟨400, NewErrorResponse "Invalid request data" e⟩, w)
  | .ok req =>
    -- Parse hire date
    match parseDate req.HireDate with
    | .error _ => (⟨400, NewErrorResponse "Invalid hire date format" "Use YYYY-MM-DD format"⟩, w)
    | .ok hireDate =>
      -- Check if NIP already exists
      match World.queryRowInt db nipCountQuery [.str req.NIP] w with
      | (.error err, w) => (⟨500, NewErrorResponse "Database error" err.Error⟩, w)
      | (.ok count, w) =>
        if count > 0 then
          (⟨409, NewErrorResponse "NIP already exists"
            "Employee with this NIP already exists"⟩, w)
        else
          -- Check if email already exists
          match World.queryRowInt db emailCountQuery [.str req.Email] w with
          | (.error err, w) => (⟨500, NewErrorResponse "Database error" err.Error⟩, w)
          | (.ok count, w) =>
            if count > 0 then
              (⟨409, NewErrorResponse "Email already exists"
                "Employee with this email already exists"⟩, w)
            else
              -- Insert new employee
              let phone : Option String := if req.Phone ≠ "" then some req.Phone else none
              let salary : Option ℚ := if req.Salary > 0 then some req.Salary else none
              match World.queryRowEmployee db insertEmployeeQuery
                  [.str req.NIP, .str req.Name, .str req.Email, .nullStr phone,
                    .str req.Position, .str req.Department, .nullFloat salary,
                    .time hireDate, .bool true, .time now, .time now] w with
              | (.error err, w) =>
                (⟨500, NewErrorResponse "Failed to create employee" err.Error⟩, w)
              | (.ok employee, w) =>
                (⟨201, NewSuccessResponse "Employee created successfully"
                  (.employee employee.ToResponse)⟩, w)

/-- The text of the soft delete. -/
def softDeleteQuery : String :=
  "UPDATE employees SET is_active = false, updated_at = $1 WHERE id = $2"

/-- `DeleteEmployee`; `idParam` is `c.Param("id")` and `now` the reading of
`time.Now()`. -/
def DeleteEmployee {σ : Type} (db : DB σ) (now : Time) (idParam : String) (w : World σ) :
    HTTPResponse × World σ :=
  match Atoi idParam with
  | none => (⟨400, NewErrorResponse "Invalid employee ID" "Employee ID must be a number"⟩, w)
  | some id =>
    -- Check if employee exists
    match World.queryRowInt db existsQuery [.int id] w with
    | (.error err, w) => (⟨500, NewErrorResponse "Database error" err.Error⟩, w)
    | (.ok found, w) =>
      if found = 0 then
        (⟨404, NewErrorResponse "Employee not found"
          "Employee with the specified ID does not exist"⟩, w)
      else
        -- Soft delete by setting is_active to false
        match World.exec db softDeleteQuery [.time now, .int id] w with
        | (some err, w) => (⟨500, NewErrorResponse "Failed to delete employee" err⟩, w)
        | (none, w) => (⟨200, NewSuccessResponse "Employee deleted successfully" .none⟩, w)

/-! ## `DB.CreateDefaultUser` (`database/database.go`) -/

/-- The text of the check for an existing default user. -/
def userCountQuery : String := "SELECT COUNT(*) FROM users WHERE username = $1"

/-- The text of the insertion of the default user. -/
def insertDefaultUserQuery : String :=
  "\n\tINSERT INTO users (username, email, password_hash) \n\tVALUES ($1, $2, $3)"

/-- The constant `hashedPassword` of `CreateDefaultUser`. -/
def defaultHashedPassword : String :=
  "$2a$10$92IXUNpkjO0rOQ5byMi.Ye4oKoEa3Ro9llC/.og/at2.uheWG/igi"

/-- `CreateDefaultUser`; the result is the returned error, `none` for `nil`. -/
def CreateDefaultUser {σ : Type} (db : DB σ) (w : World σ) : Option String × World σ :=
  -- Check if default user already exists
  match World.queryRowInt db userCountQuery [.str "admin"] w with
  | (.error err, w) => (some ("failed to check existing user: " ++ err.Error), w)
  | (.ok count, w) =>
    if count > 0 then (none, w)
    else
      -- Create default user with hashed password
      let hashedPassword := defaultHashedPassword
      match World.exec db insertDefaultUserQuery
          [.str "admin", .str "admin@company.com", .str hashedPassword] w with
      | (some err, w) => (some ("failed to create default user: " ++ err), w)
      | (none, w) => (none, w)


/-! ## The store as a set of rows

A model of the relational store for the statements the handlers above send: the rows of
the two tables, the two `SERIAL` counters and the store's `CURRENT_TIMESTAMP`. Values
are kept as bound (the rounding and the length limits of the column types are not
modelled); the `UNIQUE` constraints on `nip`, `email` and `username` make a write fail.
The filtered list query of `GetEmployees` is not interpreted. -/

/-- The state of the store. -/
structure Store where
  employees : List Employee
  users : List User
  nextEmployeeID : Int
  nextUserID : Int
  clock : Time

/-- `COUNT(*)` of the rows satisfying a condition. -/
def countWhere {α : Type} (p : α → Bool) (rows : List α) : Int := ((rows.filter p).length : Int)

/-- The error of a violated `UNIQUE` constraint. -/
def uniqueViolation : String := "pq: duplicate key value violates unique constraint"

/-- The error for a statement or an argument list the model does not interpret. -/
def unsupported : String := "pq: unsupported statement"

/-- The `SELECT COUNT(*)` statements. -/
def Store.queryRowInt (st : Stmt) (s : Store) : Except RowErr Int :=
  if st.text = existsQuery then
    match st.args with
    | [.int id] => .ok (countWhere (fun e => decide (e.ID = id)) s.employees)
    | _ => .error (.other unsupported)
  else if st.text = nipCountQuery then
    match st.args with
    | [.str nip] => .ok (countWhere (fun e => decide (e.NIP = nip)) s.employees)
    | _ => .error (.other unsupported)
  else if st.text = emailCountQuery then
    match st.args with
    | [.str email] => .ok (countWhere (fun e => decide (e.Email = email)) s.employees)
    | _ => .error (.other unsupported)
  else if st.text = emailOtherQuery then
    match st.args with
    | [.str email, .int id] =>
      .ok (countWhere (fun e => decide (e.Email = email) && decide (e.ID ≠ id)) s.employees)
    | _ => .error (.other unsupported)
  else if st.text = userCountQuery then
    match st.args with
    | [.str username] => .ok (countWhere (fun u => decide (u.Username = username)) s.users)
    | _ => .error (.other unsupported)
  else .error (.other unsupported)

/-- The rest of a text after the first occurrence of `needle`. -/
def findAfter (needle : List Char) : List Char → Option (List Char)
  | [] => if needle = [] then some [] else none
  | c :: cs =>
    if needle <+: c :: cs then some ((c :: cs).drop needle.length) else findAfter needle cs

/-- The argument bound to the placeholder that follows `needle` in the statement. -/
def Stmt.argAfter (st : Stmt) (needle : String) : Option SqlArg :=
  match findAfter needle.toList st.text.toList with
  | none => none
  | some rest =>
    let n := digitsValue (rest.takeWhile Char.isDigit)
    if n = 0 then none else st.args[n - 1]?

/-- A string-valued assignment of the `SET` list, applied to a row: absent, well-typed or
ill-typed. -/
def assignStr (st : Stmt) (needle : String) (set : String → Employee) (e : Employee) :
    Option Employee :=
  match st.argAfter needle with
  | none => some e
  | some (.str v) => some (set v)
  | some _ => none

/-- The `SET` list of a partial update, applied to a row. -/
def Store.applyAssignments (st : Stmt) (e : Employee) : Option Employee := do
  let e ← assignStr st " name = $" (fun v => { e with Name := v }) e
  let e ← assignStr st " email = $" (fun v => { e with Email := v }) e
  let e ← assignStr st " phone = $" (fun v => { e with Phone := some v }) e
  let e ← assignStr st " position = $" (fun v => { e with Position := v }) e
  let e ← assignStr st " department = $" (fun v => { e with Department := v }) e
  let e ← match st.argAfter " salary = $" with
    | none => some e
    | some (.float q) => some { e with Salary := some q }
    | some _ => none
  let e ← match st.argAfter " is_active = $" with
    | none => some e
    | some (.bool b) => some { e with IsActive := b }
    | some _ => none
  match st.argAfter " updated_at = $" with
    | none => some e
    | some (.time t) => some { e with UpdatedAt := t }
    | some _ => none

/-- The statements answered with one employee row: the insertion of `CreateEmployee` and
the partial update of `UpdateEmployee`. -/
def Store.queryRowEmployee (st : Stmt) (s : Store) : Except RowErr Employee × Store :=
  if st.text = insertEmployeeQuery then
    match st.args with
    | [.str nip, .str name, .str email, .nullStr phone, .str position, .str department,
        .nullFloat salary, .time hireDate, .bool active, .time created, .time updated] =>
      if s.employees.any (fun e => decide (e.NIP = nip) || decide (e.Email = email)) then
        (.error (.other uniqueViolation), s)
      else
        let row : Employee :=
          { ID := s.nextEmployeeID, NIP := nip, Name := name, Email := email, Phone := phone,
            Position := position, Department := department, Salary := salary,
            HireDate := hireDate, IsActive := active, CreatedAt := created,
            UpdatedAt := updated }
        (.ok row, { s with employees := s.employees ++ [row],
                           nextEmployeeID := s.nextEmployeeID + 1 })
    | _ => (.error (.other unsupported), s)
  else if "UPDATE employees SET ".toList <+: st.text.toList then
    match st.argAfter " WHERE id = $" with
    | some (.int id) =>
      match s.employees.find? (fun e => decide (e.ID = id)) with
      | none => (.error .noRows, s)
      | some old =>
        match Store.applyAssignments st old with
        | none => (.error (.other unsupported), s)
        | some row =>
          if s.employees.any (fun e => decide (e.ID ≠ id) && decide (e.Email = row.Email)) then
            (.error (.other uniqueViolation), s)
          else
            let rows := s.employees.map (fun e => if e.ID = id then row else e)
            (.ok row, { s with employees := rows })
    | _ => (.error (.other unsupported), s)
  else (.error (.other unsupported), s)

/-- The user lookup of `Login`. -/
def Store.queryRowUser (st : Stmt) (s : Store) : Except RowErr User :=
  if st.text = userByUsernameQuery then
    match st.args with
    | [.str username] =>
      match s.users.find? (fun u => decide (u.Username = username)) with
      | some u => .ok u
      | none => .error .noRows
    | _ => .error (.other unsupported)
  else .error (.other unsupported)

/-- The statements without result rows: the soft delete and the insertion of the default
user. -/
def Store.exec (st : Stmt) (s : Store) : Option String × Store :=
  if st.text = softDeleteQuery then
    match st.args with
    | [.time t, .int id] =>
      let rows := s.employees.map
        (fun e => if e.ID = id then { e with IsActive := false, UpdatedAt := t } else e)
      (none, { s with employees := rows })
    | _ => (some unsupported, s)
  else if st.text = insertDefaultUserQuery then
    match st.args with
    | [.str username, .str email, .str hash] =>
      if s.users.any (fun u => decide (u.Username = username) || decide (u.Email = email)) then
        (some uniqueViolation, s)
      else
        let row : User :=
          { ID := s.nextUserID, Username := username, Email := email, PasswordHash := hash,
            CreatedAt := s.clock, UpdatedAt := s.clock }
        (none, { s with users := s.users ++ [row], nextUserID := s.nextUserID + 1 })
    | _ => (some unsupported, s)
  else (some unsupported, s)

/-- The store model as a `DB`. -/
def memDB : DB Store :=
  { QueryRowInt := fun st s => (Store.queryRowInt st s, s)
    QueryRowEmployee := Store.queryRowEmployee
    QueryRowUser := fun st s => (Store.queryRowUser st s, s)
    Query := fun _ s => (.error unsupported, s)
    Exec := Store.exec }

/-- The statement is an `INSERT`. -/
def Stmt.isInsert (st : Stmt) : Prop := occursIn "INSERT" st.text

instance (st : Stmt) : Decidable st.isInsert := by
  unfold Stmt.isInsert
  infer_instance

/-- The soft delete applied to a row with the given id. -/
def softDeleted (id : Int) (t : Time) (e : Employee) : Employee :=
  if e.ID = id then { e with IsActive := false, UpdatedAt := t } else e

/-- A comparison for examples: it agrees with `bcrypt.CompareHashAndPassword` on the
constant of `CreateDefaultUser` at the passwords "admin123" (mismatch) and "password"
(match), as recomputed with the salt of that constant. -/
def exampleBcrypt : Bcrypt := fun hashedPassword password =>
  if hashedPassword = defaultHashedPassword ∧ password = "password" then none
  else some "crypto/bcrypt: hashedPassword is not the hash of the given password"

/-! # Properties -/

/-! ## Shared lemmas: the list queries -/

theorem setDefaults_fields (f : EmployeeFilter) :
    (setDefaults f).Department = f.Department ∧ (setDefaults f).Position = f.Position
      ∧ (setDefaults f).IsActive = f.IsActive ∧ (setDefaults f).Search = f.Search := by
  unfold setDefaults
  refine ⟨?_, ?_, ?_, ?_⟩ <;> (simp only []; split_ifs <;> rfl)

theorem setDefaults_limit (f : EmployeeFilter) :
    (setDefaults f).Limit
      = if f.Limit ≤ 0 then 10 else if f.Limit > 100 then 100 else f.Limit := by
  unfold setDefaults
  simp only []
  split_ifs <;> first | rfl | omega | simp_all

theorem setDefaults_offset (f : EmployeeFilter) :
    (setDefaults f).Offset = max f.Offset 0 := by
  unfold setDefaults
  simp only []
  split_ifs <;> simp_all <;> omega

theorem filterState_eq (f : EmployeeFilter) :
    filterState f =
      { conditions := predicatesFrom 1 (presentKinds f)
        args := (presentKinds f).flatMap (FilterKind.values f)
        argIndex := 1 + totalArity (presentKinds f) } := by
  unfold filterState addSearch addIsActive addPosition addDepartment presentKinds totalArity
  cases hA : f.IsActive <;> by_cases hD : f.Department = "" <;> by_cases hP : f.Position = ""
    <;> by_cases hS : f.Search = ""
    <;> simp [hA, hD, hP, hS, FilterKind.present, List.filter, predicatesFrom,
      FilterKind.predicate, FilterKind.arity, FilterKind.values, List.flatMap]

theorem presentKinds_setDefaults (f : EmployeeFilter) :
    presentKinds (setDefaults f) = presentKinds f := by
  obtain ⟨h1, h2, h3, h4⟩ := setDefaults_fields f
  simp [presentKinds, List.filter, FilterKind.present, h1, h2, h3, h4]

theorem values_setDefaults (f : EmployeeFilter) (k : FilterKind) :
    FilterKind.values (setDefaults f) k = FilterKind.values f k := by
  obtain ⟨h1, h2, h3, h4⟩ := setDefaults_fields f
  cases k <;> simp [FilterKind.values, h1, h2, h3, h4]

theorem presentKinds_of_presence (f g : EmployeeFilter) (h : f.presence = g.presence) :
    presentKinds f = presentKinds g := by
  simp only [EmployeeFilter.presence, Prod.mk.injEq] at h
  obtain ⟨h1, h2, h3, h4⟩ := h
  simp only [presentKinds, List.filter, FilterKind.present, h1, h2, h3, h4]

theorem listQueries_eq (f : EmployeeFilter) :
    listQueries f =
      { countQuery := countQuery0 ++ whereClause (predicatesFrom 1 (presentKinds f))
        countArgs := (presentKinds f).flatMap (FilterKind.values f)
        baseQuery := baseQuery0 ++ whereClause (predicatesFrom 1 (presentKinds f))
          ++ " ORDER BY created_at DESC"
          ++ (" LIMIT " ++ dollar (1 + totalArity (presentKinds f)) ++ " OFFSET "
            ++ dollar (1 + totalArity (presentKinds f) + 1))
        args := (presentKinds f).flatMap (FilterKind.values f)
          ++ [.int (setDefaults f).Limit, .int (setDefaults f).Offset] } := by
  simp only [listQueries, buildListQueries, filterState_eq, presentKinds_setDefaults]
  have hv : FilterKind.values (setDefaults f) = FilterKind.values f :=
    funext (values_setDefaults f)
  rw [hv]

theorem values_length (f : EmployeeFilter) :
    ((presentKinds f).flatMap (FilterKind.values f)).length = totalArity (presentKinds f) := by
  unfold presentKinds totalArity
  cases hA : f.IsActive <;> by_cases hD : f.Department = "" <;> by_cases hP : f.Position = ""
    <;> by_cases hS : f.Search = ""
    <;> simp [hA, hD, hP, hS, FilterKind.present, List.filter, FilterKind.arity,
      FilterKind.values, List.flatMap]

/-- What `GetEmployees` answers and sends for a bound filter: a 500 after the count
statement alone or after both statements, or a 200 that echoes the effective limit
and offset after both statements. -/
theorem GetEmployees_outcome {σ : Type} (db : DB σ) (w : World σ) (f : EmployeeFilter) :
    ((GetEmployees db (.ok f) w).1.status = 500
        ∧ ((GetEmployees db (.ok f) w).2.log
              = w.log ++ [⟨(listQueries f).countQuery, (listQueries f).countArgs⟩]
          ∨ (GetEmployees db (.ok f) w).2.log
              = w.log ++ [⟨(listQueries f).countQuery, (listQueries f).countArgs⟩,
                  ⟨(listQueries f).baseQuery, (listQueries f).args⟩]))
    ∨ (∃ employees total,
        (GetEmployees db (.ok f) w).1
          = ⟨200, NewSuccessResponse "Employees retrieved successfully"
              (.employeeList ⟨employees, total, (setDefaults f).Limit, (setDefaults f).Offset⟩)⟩
        ∧ (GetEmployees db (.ok f) w).2.log
              = w.log ++ [⟨(listQueries f).countQuery, (listQueries f).countArgs⟩,
                  ⟨(listQueries f).baseQuery, (listQueries f).args⟩]) := by
  simp only [GetEmployees, World.queryRowInt, World.query, listQueries]
  rcases h1 : db.QueryRowInt ⟨(buildListQueries (setDefaults f)).countQuery,
      (buildListQueries (setDefaults f)).countArgs⟩ w.store with ⟨r1, s1⟩
  cases r1 with
  | error e => simp
  | ok total =>
    simp only []
    rcases h2 : db.Query ⟨(buildListQueries (setDefaults f)).baseQuery,
        (buildListQueries (setDefaults f)).args⟩ s1 with ⟨r2, s2⟩
    cases r2 with
    | error e => simp
    | ok rows =>
      simp only []
      cases h3 : scanAll rows.scans [] with
      | error e => simp
      | ok employees =>
        simp only []
        cases h4 : rows.err with
        | some e => simp
        | none => exact Or.inr ⟨employees, total, by simp⟩

set_option maxRecDepth 100000 in
theorem countQuery_has_no_pagination (f : EmployeeFilter) :
    ¬ occursIn "ORDER BY" (listQueries f).countQuery
      ∧ ¬ occursIn "LIMIT" (listQueries f).countQuery
      ∧ ¬ occursIn "OFFSET" (listQueries f).countQuery := by
  rw [listQueries_eq]
  simp only [presentKinds]
  cases hA : f.IsActive <;> by_cases hD : f.Department = "" <;> by_cases hP : f.Position = ""
    <;> by_cases hS : f.Search = ""
    <;> simp only [hA, hD, hP, hS, FilterKind.present, List.filter, ne_eq, not_true_eq_false,
      not_false_eq_true, decide_True, decide_False, Option.isSome]
    <;> decide

set_option maxRecDepth 100000 in
theorem listQueries_without_filter (f : EmployeeFilter) (hD : f.Department = "")
    (hP : f.Position = "") (hA : f.IsActive = none) (hS : f.Search = "") :
    ¬ occursIn "WHERE" (listQueries f).baseQuery
      ∧ ¬ occursIn "WHERE" (listQueries f).countQuery := by
  rw [listQueries_eq]
  simp only [presentKinds, hA, hD, hP, hS, FilterKind.present, List.filter, ne_eq,
    not_true_eq_false, decide_False, Option.isSome]
  constructor <;> decide

/-! ## Claims C1 to C4: the list queries -/

/-- C1: in `GetEmployees` the effective limit is 10 when the bound limit is at most
0, 100 when it exceeds 100 and the bound limit otherwise, hence within [1, 100]; the
effective offset is the maximum of the bound offset and 0. These two values are the
last two bound arguments of the page statement, they are the arguments of the
`LIMIT` and `OFFSET` placeholders, and every 200 response echoes them. -/
theorem getEmployees_effective_limit_offset {σ : Type} (db : DB σ) (w : World σ)
    (filter : EmployeeFilter) :
    (setDefaults filter).Limit
        = (if filter.Limit ≤ 0 then 10 else if filter.Limit > 100 then 100 else filter.Limit)
      ∧ 1 ≤ (setDefaults filter).Limit ∧ (setDefaults filter).Limit ≤ 100
      ∧ (setDefaults filter).Offset = max filter.Offset 0
      ∧ (listQueries filter).args = (listQueries filter).countArgs
          ++ [.int (setDefaults filter).Limit, .int (setDefaults filter).Offset]
      ∧ (∃ body, (listQueries filter).baseQuery
          = body ++ (" LIMIT " ++ dollar ((listQueries filter).countArgs.length + 1)
              ++ " OFFSET " ++ dollar ((listQueries filter).countArgs.length + 2)))
      ∧ ((GetEmployees db (.ok filter) w).1.status = 500
        ∨ ∃ employees total,
            (GetEmployees db (.ok filter) w).1
              = ⟨200, NewSuccessResponse "Employees retrieved successfully"
                  (.employeeList ⟨employees, total, (setDefaults filter).Limit,
                    (setDefaults filter).Offset⟩)⟩
            ∧ (GetEmployees db (.ok filter) w).2.log
              = w.log ++ [⟨(listQueries filter).countQuery, (listQueries filter).countArgs⟩,
                  ⟨(listQueries filter).baseQuery, (listQueries filter).args⟩]) := by
  have hl := setDefaults_limit filter
  refine ⟨hl, ?_, ?_, setDefaults_offset filter, ?_, ?_, ?_⟩
  · rw [hl]; split_ifs <;> omega
  · rw [hl]; split_ifs <;> omega
  · rw [listQueries_eq]
  · refine ⟨baseQuery0 ++ whereClause (predicatesFrom 1 (presentKinds filter))
      ++ " ORDER BY created_at DESC", ?_⟩
    rw [listQueries_eq]
    simp only [values_length]
    rw [show totalArity (presentKinds filter) + 1 = 1 + totalArity (presentKinds filter) by omega,
      show totalArity (presentKinds filter) + 2 = 1 + totalArity (presentKinds filter) + 1 by omega]
  · rcases GetEmployees_outcome db w filter with h | h
    · exact Or.inl h.1
    · exact Or.inr h

/-- C2: the SELECT text and the COUNT text of `GetEmployees` are the same for any two
filters with the same presence pattern, whatever the values of department, position,
is_active, search, limit and offset; the values themselves are exactly the entries of
the bound argument list. -/
theorem getEmployees_text_independent_of_values (f g : EmployeeFilter)
    (h : f.presence = g.presence) :
    (listQueries f).baseQuery = (listQueries g).baseQuery
      ∧ (listQueries f).countQuery = (listQueries g).countQuery
      ∧ (listQueries f).args = (presentKinds f).flatMap (FilterKind.values f)
          ++ [.int (setDefaults f).Limit, .int (setDefaults f).Offset]
      ∧ (listQueries f).countArgs = (presentKinds f).flatMap (FilterKind.values f) := by
  have hk := presentKinds_of_presence f g h
  refine ⟨?_, ?_, ?_, ?_⟩ <;> simp only [listQueries_eq, hk]

/-- Witness for C2: a filter on department "IT" with limit 5 and a filter on department
"x' OR 1=1" with limit 500 and offset -3 have the same presence pattern. -/
theorem getEmployees_text_independent_of_values_witness :
    (listQueries ⟨"IT", "", none, "", 5, 0⟩).baseQuery
        = (listQueries ⟨"x' OR 1=1", "", none, "", 500, -3⟩).baseQuery
      ∧ (listQueries ⟨"IT", "", none, "", 5, 0⟩).countQuery
        = (listQueries ⟨"x' OR 1=1", "", none, "", 500, -3⟩).countQuery :=
  have h := getEmployees_text_independent_of_values ⟨"IT", "", none, "", 5, 0⟩
    ⟨"x' OR 1=1", "", none, "", 500, -3⟩ (by decide)
  ⟨h.1, h.2.1⟩

/-- C3: the COUNT statement and the SELECT statement of `GetEmployees` carry the same
WHERE clause `W`: the SELECT text is the select head, then `W`, then the ordering and
the pagination; the COUNT text is `SELECT COUNT(*) FROM employees` followed by `W`
and contains no `ORDER BY`, `LIMIT` or `OFFSET`; the COUNT arguments are the SELECT
arguments without the final two, which are the limit and the offset; these two
statements, the COUNT first, are the ones the handler sends. -/
theorem getEmployees_count_shares_where {σ : Type} (db : DB σ) (w : World σ)
    (filter : EmployeeFilter) :
    (listQueries filter).baseQuery
        = baseQuery0 ++ whereClause (filterState (setDefaults filter)).conditions
          ++ " ORDER BY created_at DESC"
          ++ (" LIMIT " ++ dollar ((listQueries filter).countArgs.length + 1)
            ++ " OFFSET " ++ dollar ((listQueries filter).countArgs.length + 2))
      ∧ (listQueries filter).countQuery
        = "SELECT COUNT(*) FROM employees"
          ++ whereClause (filterState (setDefaults filter)).conditions
      ∧ ¬ occursIn "ORDER BY" (listQueries filter).countQuery
      ∧ ¬ occursIn "LIMIT" (listQueries filter).countQuery
      ∧ ¬ occursIn "OFFSET" (listQueries filter).countQuery
      ∧ (listQueries filter).countArgs
        = (listQueries filter).args.take ((listQueries filter).args.length - 2)
      ∧ (listQueries filter).args = (listQueries filter).countArgs
          ++ [.int (setDefaults filter).Limit, .int (setDefaults filter).Offset]
      ∧ ((GetEmployees db (.ok filter) w).2.log
            = w.log ++ [⟨(listQueries filter).countQuery, (listQueries filter).countArgs⟩]
        ∨ (GetEmployees db (.ok filter) w).2.log
            = w.log ++ [⟨(listQueries filter).countQuery, (listQueries filter).countArgs⟩,
                ⟨(listQueries filter).baseQuery, (listQueries filter).args⟩]) := by
  obtain ⟨h1, h2, h3⟩ := countQuery_has_no_pagination filter
  refine ⟨?_, ?_, h1, h2, h3, ?_, ?_, ?_⟩
  rotate_right
  · rcases GetEmployees_outcome db w filter with h | ⟨_, _, _, h⟩
    · exact h.2
    · exact Or.inr h
  · rw [listQueries_eq, filterState_eq, presentKinds_setDefaults]
    simp only [values_length]
    rw [show totalArity (presentKinds filter) + 1 = 1 + totalArity (presentKinds filter) by omega,
      show totalArity (presentKinds filter) + 2 = 1 + totalArity (presentKinds filter) + 1 by omega]
  · rw [listQueries_eq, filterState_eq, presentKinds_setDefaults]
    rfl
  · rw [listQueries_eq]
    simp
  · rw [listQueries_eq]

/-- C4: `GetEmployees` emits exactly one predicate for each present filter and none
for an absent one, in the fixed order department, position, is_active, search, joined
by `" AND "` behind `" WHERE "`; the predicates are the equalities on department,
position and is_active and the `ILIKE` disjunction over name, email and nip; when no
filter is present neither text contains `WHERE`. -/
theorem getEmployees_one_predicate_per_present_filter (filter : EmployeeFilter) :
    (filterState (setDefaults filter)).conditions = predicatesFrom 1 (presentKinds filter)
      ∧ (filterState (setDefaults filter)).conditions.length = (presentKinds filter).length
      ∧ (∀ k, k ∈ presentKinds filter ↔ FilterKind.present filter k = true)
      ∧ (presentKinds filter).Sublist
          [FilterKind.department, FilterKind.position, FilterKind.isActive, FilterKind.search]
      ∧ (listQueries filter).countQuery
        = "SELECT COUNT(*) FROM employees"
          ++ (if presentKinds filter = [] then ""
              else " WHERE " ++ " AND ".intercalate (predicatesFrom 1 (presentKinds filter)))
      ∧ (listQueries filter).baseQuery
        = baseQuery0
          ++ (if presentKinds filter = [] then ""
              else " WHERE " ++ " AND ".intercalate (predicatesFrom 1 (presentKinds filter)))
          ++ " ORDER BY created_at DESC"
          ++ (" LIMIT " ++ dollar (1 + totalArity (presentKinds filter)) ++ " OFFSET "
            ++ dollar (1 + totalArity (presentKinds filter) + 1))
      ∧ (filter.Department = "" ∧ filter.Position = "" ∧ filter.IsActive = none
            ∧ filter.Search = "" →
          ¬ occursIn "WHERE" (listQueries filter).baseQuery
            ∧ ¬ occursIn "WHERE" (listQueries filter).countQuery) := by
  have hlen : ∀ (ks : List FilterKind) (i : Nat), (predicatesFrom i ks).length = ks.length := by
    intro ks
    induction ks with
    | nil => intro i; rfl
    | cons k ks ih => intro i; simp [predicatesFrom, ih]
  have hwhere : whereClause (predicatesFrom 1 (presentKinds filter))
      = (if presentKinds filter = [] then ""
          else " WHERE " ++ " AND ".intercalate (predicatesFrom 1 (presentKinds filter))) := by
    unfold whereClause
    rw [hlen]
    cases presentKinds filter <;> simp
  refine ⟨?_, ?_, ?_, ?_, ?_, ?_, ?_⟩
  · rw [filterState_eq, presentKinds_setDefaults]
  · rw [filterState_eq, presentKinds_setDefaults]
    exact hlen _ _
  · intro k
    cases k <;> simp [presentKinds, List.mem_filter]
  · exact List.filter_sublist _
  · rw [listQueries_eq, hwhere]
    rfl
  · rw [listQueries_eq, hwhere]
  · rintro ⟨hD, hP, hA, hS⟩
    exact listQueries_without_filter filter hD hP hA hS

/-- Witness for C4: the filter without any of the four filters. -/
theorem getEmployees_one_predicate_per_present_filter_witness :
    ¬ occursIn "WHERE" (listQueries ⟨"", "", none, "", 0, 0⟩).baseQuery
      ∧ ¬ occursIn "WHERE" (listQueries ⟨"", "", none, "", 0, 0⟩).countQuery :=
  (getEmployees_one_predicate_per_present_filter ⟨"", "", none, "", 0, 0⟩).2.2.2.2.2.2
    ⟨rfl, rfl, rfl, rfl⟩

/-! ## Shared lemmas: the partial update -/

theorem numberedAssignments_append (i : Nat) (fs : List (String × SqlArg))
    (c : String) (v : SqlArg) :
    numberedAssignments i (fs ++ [(c, v)])
      = numberedAssignments i fs ++ [c ++ " = " ++ dollar (i + fs.length)] := by
  induction fs generalizing i with
  | nil => simp [numberedAssignments]
  | cons f fs ih =>
    have e : i + 1 + fs.length = i + (fs.length + 1) := by omega
    show (f.1 ++ " = " ++ dollar i) :: numberedAssignments (i + 1) (fs ++ [(c, v)]) = _
    rw [ih (i + 1), e]
    rfl

theorem numberedAssignments_length (i : Nat) (fs : List (String × SqlArg)) :
    (numberedAssignments i fs).length = fs.length := by
  induction fs generalizing i with
  | nil => rfl
  | cons f fs ih => simp [numberedAssignments, ih]

theorem numberedAssignments_get (fs : List (String × SqlArg)) (i j : Nat) :
    (numberedAssignments i fs)[j]? = fs[j]?.map (fun f => f.1 ++ " = " ++ dollar (i + j)) := by
  induction fs generalizing i j with
  | nil => simp [numberedAssignments]
  | cons f fs ih =>
    cases j with
    | zero => simp [numberedAssignments]
    | succ j =>
      simp only [numberedAssignments, List.getElem?_cons_succ, ih]
      rw [show i + 1 + j = i + (j + 1) by omega]

theorem Renders_init : QueryState.init.Renders [] := rfl

theorem Renders_assign (s : QueryState) (fs : List (String × SqlArg)) (c : String) (v : SqlArg)
    (h : s.Renders fs) : (s.assign c v).Renders (fs ++ [(c, v)]) := by
  unfold QueryState.Renders at h ⊢
  subst h
  simp [QueryState.assign, numberedAssignments_append, Nat.add_comm]

theorem updateState_renders (req : UpdateEmployeeRequest) :
    (setIsActive req (setSalary req (setDepartment req (setPosition req (setPhone req
      (emailStep req (setName req QueryState.init))))))).Renders (providedAssignments req) := by
  have h0 := Renders_init
  have h1 : (setName req QueryState.init).Renders
      (if req.Name ≠ "" then [("name", SqlArg.str req.Name)] else []) := by
    unfold setName
    by_cases h : req.Name = ""
    · simpa [h] using h0
    · simpa [h] using Renders_assign _ _ "name" (.str req.Name) h0
  have h2 : (emailStep req (setName req QueryState.init)).Renders
      ((if req.Name ≠ "" then [("name", SqlArg.str req.Name)] else [])
        ++ (if req.Email ≠ "" then [("email", SqlArg.str req.Email)] else [])) := by
    unfold emailStep setEmail
    by_cases h : req.Email = ""
    · simpa [h] using h1
    · simpa [h] using Renders_assign _ _ "email" (.str req.Email) h1
  have h3 : (setPhone req (emailStep req (setName req QueryState.init))).Renders
      ((if req.Name ≠ "" then [("name", SqlArg.str req.Name)] else [])
        ++ (if req.Email ≠ "" then [("email", SqlArg.str req.Email)] else [])
        ++ (if req.Phone ≠ "" then [("phone", SqlArg.str req.Phone)] else [])) := by
    unfold setPhone
    by_cases h : req.Phone = ""
    · simpa [h] using h2
    · simpa [h] using Renders_assign _ _ "phone" (.str req.Phone) h2
  have h4 : (setPosition req (setPhone req (emailStep req (setName req QueryState.init)))).Renders
      ((if req.Name ≠ "" then [("name", SqlArg.str req.Name)] else [])
        ++ (if req.Email ≠ "" then [("email", SqlArg.str req.Email)] else [])
        ++ (if req.Phone ≠ "" then [("phone", SqlArg.str req.Phone)] else [])
        ++ (if req.Position ≠ "" then [("position", SqlArg.str req.Position)] else [])) := by
    unfold setPosition
    by_cases h : req.Position = ""
    · simpa [h] using h3
    · simpa [h] using Renders_assign _ _ "position" (.str req.Position) h3
  have h5 : (setDepartment req (setPosition req (setPhone req (emailStep req
      (setName req QueryState.init))))).Renders
      ((if req.Name ≠ "" then [("name", SqlArg.str req.Name)] else [])
        ++ (if req.Email ≠ "" then [("email", SqlArg.str req.Email)] else [])
        ++ (if req.Phone ≠ "" then [("phone", SqlArg.str req.Phone)] else [])
        ++ (if req.Position ≠ "" then [("position", SqlArg.str req.Position)] else [])
        ++ (if req.Department ≠ "" then [("department", SqlArg.str req.Department)] else [])) := by
    unfold setDepartment
    by_cases h : req.Department = ""
    · simpa [h] using h4
    · simpa [h] using Renders_assign _ _ "department" (.str req.Department) h4
  have h6 : (setSalary req (setDepartment req (setPosition req (setPhone req (emailStep req
      (setName req QueryState.init)))))).Renders
      ((if req.Name ≠ "" then [("name", SqlArg.str req.Name)] else [])
        ++ (if req.Email ≠ "" then [("email", SqlArg.str req.Email)] else [])
        ++ (if req.Phone ≠ "" then [("phone", SqlArg.str req.Phone)] else [])
        ++ (if req.Position ≠ "" then [("position", SqlArg.str req.Position)] else [])
        ++ (if req.Department ≠ "" then [("department", SqlArg.str req.Department)] else [])
        ++ (if req.Salary > 0 then [("salary", SqlArg.float req.Salary)] else [])) := by
    unfold setSalary
    by_cases h : req.Salary > 0
    · simpa [h] using Renders_assign _ _ "salary" (.float req.Salary) h5
    · simpa [h] using h5
  unfold setIsActive providedAssignments
  cases hA : req.IsActive with
  | none => simpa using h6
  | some b => simpa using Renders_assign _ _ "is_active" (.bool b) h6

theorem updateAfterEmail_run {σ : Type} (db : DB σ) (now : Time) (id : Int)
    (req : UpdateEmployeeRequest) (w : World σ) :
    (providedAssignments req = []
        ∧ updateAfterEmail db now id req (emailStep req (setName req QueryState.init)) w
          = (noFieldsResponse, w))
      ∨ (providedAssignments req ≠ []
        ∧ ((updateAfterEmail db now id req (emailStep req (setName req QueryState.init)) w).1.status
              = 500
          ∨ (updateAfterEmail db now id req (emailStep req (setName req QueryState.init)) w).1.status
              = 200)
        ∧ (updateAfterEmail db now id req (emailStep req (setName req QueryState.init)) w).2.log
          = w.log ++ [updateStmt (providedAssignments req) now id]) := by
  have hR := updateState_renders req
  unfold QueryState.Renders at hR
  unfold updateAfterEmail
  simp only [hR, numberedAssignments_length, List.length_eq_zero]
  by_cases hP : providedAssignments req = []
  · left
    refine ⟨hP, ?_⟩
    simp [hP, noFieldsResponse]
  · right
    refine ⟨hP, ?_⟩
    simp only [hP, if_false, World.queryRowEmployee, QueryState.assign, updateStmt,
      numberedAssignments_append, List.map_append, List.map_cons, List.map_nil]
    have e1 : 1 + (providedAssignments req).length = (providedAssignments req).length + 1 := by
      omega
    rw [e1]
    rcases db.QueryRowEmployee _ w.store with ⟨r, s'⟩
    cases r <;> simp

theorem UpdateEmployee_after_reads {σ : Type} (db : DB σ) (now : Time) (idParam : String)
    (id : Int) (req : UpdateEmployeeRequest) (w : World σ)
    (hid : Atoi idParam = some id) (hreads : ReadsPass db w id req) :
    ∃ w1 : World σ,
      w1.log = w.log ++ [⟨existsQuery, [.int id]⟩]
          ++ (if req.Email ≠ "" then [⟨emailOtherQuery, [.str req.Email, .int id]⟩] else [])
        ∧ UpdateEmployee db now idParam (.ok req) w
          = updateAfterEmail db now id req (emailStep req (setName req QueryState.init)) w1 := by
  obtain ⟨found, hf, hne, hmail⟩ := hreads
  unfold UpdateEmployee
  simp only [hid, World.queryRowInt, hf, hne, if_false]
  by_cases hE : req.Email = ""
  · refine ⟨⟨(db.QueryRowInt ⟨existsQuery, [.int id]⟩ w.store).2,
      w.log ++ [⟨existsQuery, [.int id]⟩]⟩, ?_, ?_⟩
    · simp [hE]
    · simp only [hE, ne_eq, not_true_eq_false, if_false, emailStep]
  · obtain ⟨count, hc, hle⟩ := hmail hE
    refine ⟨⟨(db.QueryRowInt ⟨emailOtherQuery, [.str req.Email, .int id]⟩
        (db.QueryRowInt ⟨existsQuery, [.int id]⟩ w.store).2).2,
      w.log ++ [⟨existsQuery, [.int id]⟩] ++ [⟨emailOtherQuery, [.str req.Email, .int id]⟩]⟩,
      ?_, ?_⟩
    · simp [hE]
    · simp only [hE, ne_eq, not_false_eq_true, if_true, emailStep, hc, hle, if_false]

/-- The outcome of `UpdateEmployee` once the id is numeric, the body is bound and the
reads pass: without provided fields the 400 response after the existence check
alone; otherwise a 500 or a 200 after the `UPDATE` statement of the specification. -/
theorem UpdateEmployee_run {σ : Type} (db : DB σ) (now : Time) (idParam : String)
    (id : Int) (req : UpdateEmployeeRequest) (w : World σ)
    (hid : Atoi idParam = some id) (hreads : ReadsPass db w id req) :
    (providedAssignments req = []
        ∧ (UpdateEmployee db now idParam (.ok req) w).1 = noFieldsResponse
        ∧ (UpdateEmployee db now idParam (.ok req) w).2.log
          = w.log ++ [⟨existsQuery, [.int id]⟩])
      ∨ (providedAssignments req ≠ []
        ∧ ((UpdateEmployee db now idParam (.ok req) w).1.status = 500
          ∨ (UpdateEmployee db now idParam (.ok req) w).1.status = 200)
        ∧ (UpdateEmployee db now idParam (.ok req) w).2.log
          = w.log ++ [⟨existsQuery, [.int id]⟩]
            ++ (if req.Email ≠ "" then [⟨emailOtherQuery, [.str req.Email, .int id]⟩] else [])
            ++ [updateStmt (providedAssignments req) now id]) := by
  obtain ⟨w1, hlog, hrun⟩ := UpdateEmployee_after_reads db now idParam id req w hid hreads
  rw [hrun]
  rcases updateAfterEmail_run db now id req w1 with ⟨hP, h⟩ | ⟨hP, hst, hl⟩
  · left
    have hE : req.Email = "" := by
      by_contra hE
      simp [providedAssignments, hE] at hP
    refine ⟨hP, by rw [h], ?_⟩
    rw [h]
    simpa [hE] using hlog
  · right
    exact ⟨hP, hst, by rw [hl, hlog]⟩

theorem providedAssignments_eq_nil (req : UpdateEmployeeRequest) :
    providedAssignments req = []
      ↔ (req.Name = "" ∧ req.Email = "" ∧ req.Phone = "" ∧ req.Position = ""
          ∧ req.Department = "" ∧ req.Salary ≤ 0 ∧ req.IsActive = none) := by
  unfold providedAssignments
  cases hA : req.IsActive <;> by_cases h1 : req.Name = "" <;> by_cases h2 : req.Email = ""
    <;> by_cases h3 : req.Phone = "" <;> by_cases h4 : req.Position = ""
    <;> by_cases h5 : req.Department = "" <;> by_cases h6 : req.Salary > 0
    <;> simp [h1, h2, h3, h4, h5, h6, le_of_lt, not_lt.mp, not_le.mpr]

theorem updateStmt_isUpdate (fs : List (String × SqlArg)) (now : Time) (id : Int) :
    (updateStmt fs now id).isUpdate := by
  unfold Stmt.isUpdate updateStmt
  simp only [String.append_assoc]
  rw [show "UPDATE employees SET " = "UPDATE" ++ " employees SET " by decide,
    String.append_assoc]
  show "UPDATE".data <+: (_ ++ _ : String).data
  rw [String.data_append]
  exact List.prefix_append _ _

theorem providedAssignments_columns (req : UpdateEmployeeRequest) :
    ((providedAssignments req).map Prod.fst).Sublist
      ["name", "email", "phone", "position", "department", "salary", "is_active"] := by
  have piece : ∀ (c : Prop) [Decidable c] (x : String × SqlArg),
      ((if c then [x] else []).map Prod.fst).Sublist [x.1] := by
    intro c _ x
    split_ifs <;> simp
  have last : (match req.IsActive with
      | some b => [("is_active", SqlArg.bool b)]
      | none => []).map Prod.fst |>.Sublist ["is_active"] := by
    cases req.IsActive <;> simp
  unfold providedAssignments
  simp only [List.map_append]
  exact ((((((piece _ ("name", SqlArg.str req.Name)).append
    (piece _ ("email", SqlArg.str req.Email))).append
    (piece _ ("phone", SqlArg.str req.Phone))).append
    (piece _ ("position", SqlArg.str req.Position))).append
    (piece _ ("department", SqlArg.str req.Department))).append
    (piece _ ("salary", SqlArg.float req.Salary))).append last

set_option maxRecDepth 100000 in
theorem updateText_example :
    "UPDATE employees SET " ++ ", ".intercalate (numberedAssignments 1
        [("name", SqlArg.str "Ann"), ("is_active", SqlArg.bool false),
          ("updated_at", SqlArg.time 0)]) ++ " WHERE id = " ++ dollar (3 + 1) ++ " RETURNING "
          ++ returningColumns
      = "UPDATE employees SET name = $1, is_active = $2, updated_at = $3 WHERE id = $4 RETURNING id, nip, name, email, phone, position, department, salary, hire_date, is_active, created_at, updated_at" := by
  decide

/-! ## Claims C5 and C6: the partial update -/

/-- C5: in `UpdateEmployee`, with a numeric id, a bound body, an existing employee,
store reads that answer and no other employee holding the requested e-mail, the
request is answered 400 "No fields to update" without any `UPDATE` statement being
sent if and only if name, email, phone, position and department are empty, the salary
is at most 0 and is_active is nil; in every other case an `UPDATE` statement is sent. -/
theorem updateEmployee_rejects_iff_no_field {σ : Type} (db : DB σ) (now : Time)
    (idParam : String) (id : Int) (req : UpdateEmployeeRequest) (w : World σ)
    (hid : Atoi idParam = some id) (hreads : ReadsPass db w id req) :
    (((UpdateEmployee db now idParam (.ok req) w).1
          = ⟨400, NewErrorResponse "No fields to update"
              "At least one field must be provided for update"⟩
        ∧ ∀ st ∈ (UpdateEmployee db now idParam (.ok req) w).2.log.drop w.log.length,
            ¬ st.isUpdate)
      ↔ (req.Name = "" ∧ req.Email = "" ∧ req.Phone = "" ∧ req.Position = ""
          ∧ req.Department = "" ∧ req.Salary ≤ 0 ∧ req.IsActive = none))
    ∧ (¬ (req.Name = "" ∧ req.Email = "" ∧ req.Phone = "" ∧ req.Position = ""
          ∧ req.Department = "" ∧ req.Salary ≤ 0 ∧ req.IsActive = none) →
        ((UpdateEmployee db now idParam (.ok req) w).1.status = 500
          ∨ (UpdateEmployee db now idParam (.ok req) w).1.status = 200)
        ∧ ∃ st ∈ (UpdateEmployee db now idParam (.ok req) w).2.log.drop w.log.length,
          st.isUpdate) := by
  rw [← providedAssignments_eq_nil]
  rcases UpdateEmployee_run db now idParam id req w hid hreads with
    ⟨hP, hresp, hlog⟩ | ⟨hP, hst, hlog⟩
  · refine ⟨⟨fun _ => hP, fun _ => ⟨hresp, ?_⟩⟩, fun h => absurd hP h⟩
    rw [hlog, List.drop_left]
    intro st hmem
    rw [List.mem_singleton] at hmem
    subst hmem
    show ¬ ("UPDATE".toList <+: existsQuery.toList)
    decide
  · refine ⟨⟨fun h => ?_, fun h => absurd h hP⟩, fun _ => ?_⟩
    · exfalso
      have h400 : (UpdateEmployee db now idParam (.ok req) w).1.status = 400 := by rw [h.1]
      rcases hst with h5 | h2 <;> omega
    · refine ⟨hst, updateStmt (providedAssignments req) now id, ?_, updateStmt_isUpdate _ _ _⟩
      rw [hlog, List.append_assoc, List.append_assoc, List.drop_left]
      simp

/-- Witness for C5, at the store `stubDB 1 0 _` (the employee exists, nobody else
holds the e-mail) and the id "7": a body carrying only `is_active = false` makes the
handler send an `UPDATE`; a body carrying only `salary = 0` (which is also the body
carrying only `phone = ""`) is answered with the 400 response and sends none. -/
theorem updateEmployee_rejects_iff_no_field_witness :
    (((UpdateEmployee (stubDB 1 0 (.error .noRows)) 0 "7"
          (.ok ⟨"", "", "", "", "", 0, some false⟩) ⟨(), []⟩).1.status = 500
        ∨ (UpdateEmployee (stubDB 1 0 (.error .noRows)) 0 "7"
          (.ok ⟨"", "", "", "", "", 0, some false⟩) ⟨(), []⟩).1.status = 200)
      ∧ ∃ st ∈ (UpdateEmployee (stubDB 1 0 (.error .noRows)) 0 "7"
          (.ok ⟨"", "", "", "", "", 0, some false⟩) ⟨(), []⟩).2.log.drop 0, st.isUpdate)
      ∧ ((UpdateEmployee (stubDB 1 0 (.error .noRows)) 0 "7"
          (.ok ⟨"", "", "", "", "", 0, none⟩) ⟨(), []⟩).1
          = ⟨400, NewErrorResponse "No fields to update"
              "At least one field must be provided for update"⟩
        ∧ ∀ st ∈ (UpdateEmployee (stubDB 1 0 (.error .noRows)) 0 "7"
          (.ok ⟨"", "", "", "", "", 0, none⟩) ⟨(), []⟩).2.log.drop 0, ¬ st.isUpdate) :=
  have hid : Atoi "7" = some 7 := by decide
  have hreads : ∀ req, ReadsPass (stubDB 1 0 (.error .noRows)) ⟨(), []⟩ 7 req :=
    fun _ => ⟨1, rfl, by decide, fun _ => ⟨0, rfl, by decide⟩⟩
  ⟨(updateEmployee_rejects_iff_no_field (stubDB 1 0 (.error .noRows)) 0 "7" 7
      ⟨"", "", "", "", "", 0, some false⟩ ⟨(), []⟩ hid (hreads _)).2
      (fun h => Option.noConfusion h.2.2.2.2.2.2),
    (updateEmployee_rejects_iff_no_field (stubDB 1 0 (.error .noRows)) 0 "7" 7
      ⟨"", "", "", "", "", 0, none⟩ ⟨(), []⟩ hid (hreads _)).1.mpr
      ⟨rfl, rfl, rfl, rfl, rfl, le_refl _, rfl⟩⟩

/-- C6: for an update request that provides at least one field (and reaches the
statement: numeric id, bound body, reads that pass), the last statement sent by
`UpdateEmployee` is the `UPDATE` whose assignments are those of the provided fields
in the order name, email, phone, position, department, salary, is_active followed by
`updated_at`; with `n` assignments, the `j`-th one uses the placeholder `$j`, the
`WHERE` clause is `id = $(n+1)`, the argument list has `n + 1` entries, its `j`-th
entry is the value of the `j`-th assignment and its last entry is the id. -/
theorem updateEmployee_statement_shape {σ : Type} (db : DB σ) (now : Time)
    (idParam : String) (id : Int) (req : UpdateEmployeeRequest) (w : World σ)
    (hid : Atoi idParam = some id) (hreads : ReadsPass db w id req)
    (hsome : ¬ (req.Name = "" ∧ req.Email = "" ∧ req.Phone = "" ∧ req.Position = ""
      ∧ req.Department = "" ∧ req.Salary ≤ 0 ∧ req.IsActive = none)) :
    ∃ (fs : List (String × SqlArg)) (args : List SqlArg),
      fs = providedAssignments req ++ [("updated_at", SqlArg.time now)]
      ∧ (providedAssignments req).length ≥ 1
      ∧ ((providedAssignments req).map Prod.fst).Sublist
          ["name", "email", "phone", "position", "department", "salary", "is_active"]
      ∧ (UpdateEmployee db now idParam (.ok req) w).2.log.getLast?
        = some ⟨"UPDATE employees SET " ++ ", ".intercalate (numberedAssignments 1 fs)
            ++ " WHERE id = " ++ dollar (fs.length + 1) ++ " RETURNING " ++ returningColumns,
          args⟩
      ∧ (∀ j, (numberedAssignments 1 fs)[j]?
          = fs[j]?.map (fun f => f.1 ++ " = " ++ dollar (j + 1)))
      ∧ args.length = fs.length + 1
      ∧ (∀ j, j < fs.length → args[j]? = fs[j]?.map Prod.snd)
      ∧ args[fs.length]? = some (SqlArg.int id) := by
  rw [← providedAssignments_eq_nil] at hsome
  rcases UpdateEmployee_run db now idParam id req w hid hreads with
    ⟨hP, _, _⟩ | ⟨hP, _, hlog⟩
  · exact absurd hP hsome
  refine ⟨providedAssignments req ++ [("updated_at", SqlArg.time now)],
    (providedAssignments req ++ [("updated_at", SqlArg.time now)]).map Prod.snd
      ++ [SqlArg.int id], rfl, ?_, ?_, ?_, ?_, ?_, ?_, ?_⟩
  · exact List.length_pos.mpr hP
  · exact providedAssignments_columns req
  · rw [hlog, List.getLast?_append, List.getLast?_singleton]
    simp [updateStmt]
  · intro j
    rw [numberedAssignments_get, Nat.add_comm]
  · simp
  · intro j hj
    rw [List.getElem?_append_left (by simpa using hj), List.getElem?_map]
  · rw [List.getElem?_append_right (by simp)]
    simp

/-- Witness for C6, at the store `stubDB 1 0 _`, the id "7", the clock reading 0 and a
body carrying the name "Ann" and `is_active = false`: the statement sent last is
`UPDATE employees SET name = $1, is_active = $2, updated_at = $3 WHERE id = $4 ...`. -/
theorem updateEmployee_statement_shape_witness :
    ∃ args : List SqlArg,
      (UpdateEmployee (stubDB 1 0 (.error .noRows)) 0 "7"
          (.ok ⟨"Ann", "", "", "", "", 0, some false⟩) ⟨(), []⟩).2.log.getLast?
        = some ⟨"UPDATE employees SET name = $1, is_active = $2, updated_at = $3 WHERE id = $4 RETURNING id, nip, name, email, phone, position, department, salary, hire_date, is_active, created_at, updated_at",
            args⟩
      ∧ args.length = 4
      ∧ args[0]? = some (SqlArg.str "Ann") ∧ args[1]? = some (SqlArg.bool false)
      ∧ args[2]? = some (SqlArg.time 0) ∧ args[3]? = some (SqlArg.int 7) := by
  obtain ⟨fs, args, hfs, _, _, hlast, _, hlen, hget, hidx⟩ :=
    updateEmployee_statement_shape (stubDB 1 0 (.error .noRows)) 0 "7" 7
      ⟨"Ann", "", "", "", "", 0, some false⟩ ⟨(), []⟩ (by decide)
      ⟨1, rfl, by decide, fun _ => ⟨0, rfl, by decide⟩⟩ (fun h => absurd h.1 (by decide))
  have hfs2 : fs = [("name", SqlArg.str "Ann"), ("is_active", SqlArg.bool false),
      ("updated_at", SqlArg.time 0)] := by
    rw [hfs]
    simp [providedAssignments]
  subst hfs2
  refine ⟨args, ?_, hlen, ?_, ?_, ?_, hidx⟩
  · rw [hlast]
    exact congrArg (fun t => some (Stmt.mk t args)) updateText_example
  · exact hget 0 (by decide)
  · exact hget 1 (by decide)
  · exact hget 2 (by decide)

/-! ## Shared lemmas: the token manager -/

theorem float64OfInt_exact (n : Int) (h : n.natAbs < 2 ^ 53) : float64OfInt n = n := by
  unfold float64OfInt
  simp only [h, if_true]

theorem int64OfFloat_intCast (n : Int) (h1 : -(2 ^ 63) ≤ n) (h2 : n < 2 ^ 63) :
    int64OfFloat (n : ℚ) = n := by
  unfold int64OfFloat
  by_cases h : (0 : ℚ) ≤ (n : ℚ)
  · simp only [h, if_true, Int.floor_intCast, h1, h2, and_self]
  · simp only [h, if_false, Int.ceil_intCast, h1, h2, and_self, if_true]

theorem GetSigningMethod_HS256 : GetSigningMethod "HS256" = some (.HMAC "HS256") := by
  decide

/-- The claims `GenerateToken` signs, looked up by key. -/
theorem generated_claims_lookup (a : ℚ) (b c : String) (d e : ℚ) :
    claimFloat [("user_id", .number a), ("username", .string b), ("email", .string c),
        ("exp", .number d), ("iat", .number e)] "exp" = some d
      ∧ claimFloat [("user_id", .number a), ("username", .string b), ("email", .string c),
        ("exp", .number d), ("iat", .number e)] "user_id" = some a
      ∧ claimFloat [("user_id", .number a), ("username", .string b), ("email", .string c),
        ("exp", .number d), ("iat", .number e)] "iat" = some e
      ∧ claimString [("user_id", .number a), ("username", .string b), ("email", .string c),
        ("exp", .number d), ("iat", .number e)] "username" = some b
      ∧ claimString [("user_id", .number a), ("username", .string b), ("email", .string c),
        ("exp", .number d), ("iat", .number e)] "email" = some c
      ∧ List.lookup "exp" [("user_id", ClaimValue.number a), ("username", .string b),
        ("email", .string c), ("exp", .number d), ("iat", .number e)] = some (.number d)
      ∧ List.lookup "nbf" [("user_id", ClaimValue.number a), ("username", .string b),
        ("email", .string c), ("exp", .number d), ("iat", .number e)] = Option.none := by
  refine ⟨?_, ?_, ?_, ?_, ?_, ?_, ?_⟩ <;> simp [claimFloat, claimString, List.lookup]

theorem jwtParse_signed (j : JWTManager) (nowParse : Time) (claims : MapClaims) :
    jwtParse (signedHS256 j.secret claims) (keyFunc j) nowParse
      = match validateClaims claims nowParse with
        | some e => .error ("token has invalid claims: " ++ e)
        | Option.none => .ok { alg := "HS256", Method := .HMAC "HS256", Claims := claims,
                               Signature := .hmac "HS256" j.secret claims, Valid := true } := by
  simp only [jwtParse, signedHS256, GetSigningMethod_HS256, keyFunc, SigningMethod.Verify,
    decide_True, Bool.true_eq_false, if_false]

theorem ValidateToken_signed (j : JWTManager) (nowParse now : Time) (claims : MapClaims)
    (h : validateClaims claims nowParse = Option.none) :
    ValidateToken j nowParse now (signedHS256 j.secret claims) = extractClaims now claims := by
  simp only [ValidateToken, jwtParse_signed, h, Bool.true_eq_false, if_false]

theorem ValidateToken_signed_invalid (j : JWTManager) (nowParse now : Time) (claims : MapClaims)
    (e : String) (h : validateClaims claims nowParse = some e) :
    ValidateToken j nowParse now (signedHS256 j.secret claims)
      = .error ("failed to parse token: " ++ ("token has invalid claims: " ++ e)) := by
  simp only [ValidateToken, jwtParse_signed, h]

theorem GenerateToken_eq (j : JWTManager) (now : Time) (user : User) :
    GenerateToken j now user
      = .ok (signedHS256 j.secret
          [("user_id", .number (float64OfInt user.ID)), ("username", .string user.Username),
            ("email", .string user.Email),
            ("exp", .number (float64OfInt (unix (now + j.expiry)))),
            ("iat", .number (float64OfInt (unix now)))], now + j.expiry) := by
  rfl

theorem natAbs_lt_of_bounds (n : Int) (h0 : 0 ≤ n) (h1 : n < 2 ^ 53) : n.natAbs < 2 ^ 53 := by
  omega

theorem int64OfFloat_float64OfInt (n : Int) (h : n.natAbs < 2 ^ 53) :
    int64OfFloat ((float64OfInt n : Int) : ℚ) = n := by
  rw [float64OfInt_exact n h]
  exact int64OfFloat_intCast n (by omega) (by omega)

theorem unix_after_expiry (now expiry : Int) (hnow : 0 ≤ now) (hexpiry : 1000000000 ≤ expiry) :
    unix now < unix (now + expiry) ∧ 0 ≤ unix now ∧ now < unix (now + expiry) * 1000000000 := by
  unfold unix Time
  omega

theorem wrapInt64_of_range (n : Int) (h1 : -(2 ^ 63) ≤ n) (h2 : n < 2 ^ 63) :
    wrapInt64 n = n := by
  unfold wrapInt64
  omega

/-- A whole number of seconds within the range of `time.Time` denotes that second. -/
theorem newNumericDateFromSeconds_intCast (E : Int) (h1 : -(2 ^ 63) ≤ E)
    (h2 : E < 2 ^ 63 - 62135596800) :
    newNumericDateFromSeconds (E : ℚ) = E * 1000000000 := by
  have hr : (if (0 : ℚ) ≤ (E : ℚ) then ⌊(E : ℚ)⌋ else ⌈(E : ℚ)⌉) = E := by
    split_ifs
    · exact Int.floor_intCast E
    · exact Int.ceil_intCast E
  have h0 : int64OfFloat (0 : ℚ) = 0 := by
    simpa using int64OfFloat_intCast 0 (by decide) (by decide)
  have hw : wrapInt64 (E + unixToInternal) = E + unixToInternal := by
    apply wrapInt64_of_range <;> unfold unixToInternal <;> omega
  unfold newNumericDateFromSeconds
  simp only [hr, sub_self, zero_mul, h0, lt_self_iff_false, if_false,
    int64OfFloat_intCast E h1 (by omega), hw, add_sub_cancel_right]

/-- A date after the epoch within the range of `time.Time` denotes its whole second. -/
theorem newNumericDateFromSeconds_nonneg (x : ℚ) (h0 : 0 ≤ x)
    (h2 : ⌊x⌋ < 2 ^ 63 - 62135596800) :
    newNumericDateFromSeconds x = ⌊x⌋ * 1000000000 := by
  have hfl : (0 : Int) ≤ ⌊x⌋ := Int.floor_nonneg.mpr h0
  have hfrac0 : (0 : ℚ) ≤ (x - (⌊x⌋ : ℚ)) * 1000000000 :=
    mul_nonneg (sub_nonneg.mpr (Int.floor_le x)) (by norm_num)
  have hn : ¬ int64OfFloat ((x - (⌊x⌋ : ℚ)) * 1000000000) < 0 := by
    unfold int64OfFloat
    simp only [hfrac0, if_true]
    have hf : (0 : Int) ≤ ⌊(x - (⌊x⌋ : ℚ)) * 1000000000⌋ := Int.floor_nonneg.mpr hfrac0
    have hlt : (x - (⌊x⌋ : ℚ)) * 1000000000 < ((1000000000 : Int) : ℚ) := by
      have h1 : x - (⌊x⌋ : ℚ) < 1 := by
        have := Int.lt_floor_add_one x
        linarith
      push_cast
      linarith
    have hf1 : ⌊(x - (⌊x⌋ : ℚ)) * 1000000000⌋ < 1000000000 := Int.floor_lt.mpr hlt
    split_ifs <;> omega
  have hw : wrapInt64 (⌊x⌋ + unixToInternal) = ⌊x⌋ + unixToInternal := by
    apply wrapInt64_of_range <;> unfold unixToInternal <;> omega
  unfold newNumericDateFromSeconds
  simp only [h0, if_true, hn, if_false, int64OfFloat_intCast ⌊x⌋ (by omega) (by omega), hw,
    add_sub_cancel_right]

theorem joinErrors_nil : joinErrors [] = Option.none := rfl

theorem joinErrors_one (a : String) : joinErrors [a] = some a := rfl

theorem joinErrors_two (a b : String) : joinErrors [a, b] = some (a ++ ", " ++ b) := rfl

/-- The library validation accepts exactly when both of its checks pass. -/
theorem validateClaims_eq_none (m : MapClaims) (now : Time) :
    validateClaims m now = Option.none
      ↔ verifyExpiresAt m now = Option.none ∧ verifyNotBefore m now = Option.none := by
  unfold validateClaims
  cases verifyExpiresAt m now <;> cases verifyNotBefore m now <;>
    simp [joinErrors_nil, joinErrors_one, joinErrors_two]

/-- The library validation of the claims `GenerateToken` signs, for a numeric date
`exp` that `float64` holds exactly and that lies in the range of `time.Time`. -/
theorem validateClaims_generated (a : ℚ) (b c : String) (E : Int) (e : ℚ) (now : Time)
    (hE : E ≠ 0) (hlo : -(2 ^ 63) ≤ E) (hhi : E < 2 ^ 62) :
    validateClaims [("user_id", .number a), ("username", .string b), ("email", .string c),
        ("exp", .number (E : ℚ)), ("iat", .number e)] now
      = if now < E * 1000000000 then Option.none else some "token is expired" := by
  obtain ⟨_, _, _, _, _, hl, hn⟩ := generated_claims_lookup a b c (E : ℚ) e
  have hE0 : ((E : ℚ) = 0) = False := by simp [hE]
  simp only [validateClaims, verifyExpiresAt, verifyNotBefore, parseNumericDate, hl, hn, hE0,
    if_false, newNumericDateFromSeconds_intCast E hlo (by omega)]
  split_ifs <;> rfl

/-- Whatever the token, claims returned by `ValidateToken` have an `exp` that is not
before the Unix second of the "Check expiration" reading: a token is rejected whenever
`now > exp`. -/
theorem ValidateToken_ok_not_after_exp (j : JWTManager) (nowParse now : Time)
    (tokenString : TokenString) (c : JWTClaims)
    (h : ValidateToken j nowParse now tokenString = .ok c) : unix now ≤ c.Exp := by
  unfold ValidateToken at h
  cases hp : jwtParse tokenString (keyFunc j) nowParse with
  | error e => simp [hp] at h
  | ok token =>
    simp only [hp] at h
    split_ifs at h with hvalid
    unfold extractClaims at h
    cases hexp : claimFloat token.Claims "exp" with
    | none => simp [hexp] at h
    | some exp =>
      simp only [hexp] at h
      split_ifs at h with hgt
      cases h1 : claimFloat token.Claims "user_id" <;> simp only [h1] at h <;> try cases h
      cases h2 : claimString token.Claims "username" <;> simp only [h2] at h <;> try cases h
      cases h3 : claimString token.Claims "email" <;> simp only [h3] at h <;> try cases h
      cases h4 : claimFloat token.Claims "iat" <;> simp only [h4] at h <;> try cases h
      show unix now ≤ int64OfFloat exp
      exact not_lt.mp hgt

/-- Claims are returned only if the clock reading inside `jwt.Parse` was strictly before
the instant of a non-zero `exp`: the library check is strict. -/
theorem ValidateToken_ok_before_exp_at_parse (j : JWTManager) (nowParse now : Time)
    (alg : Option String) (claims : MapClaims) (sig : Signature) (c : JWTClaims) (x : ℚ)
    (h : ValidateToken j nowParse now (.compact alg claims sig) = .ok c)
    (hx : claims.lookup "exp" = some (.number x)) (hx0 : x ≠ 0) :
    nowParse < newNumericDateFromSeconds x := by
  by_contra hlt
  have hv : ∃ e, validateClaims claims nowParse = some e := by
    have hexp : verifyExpiresAt claims nowParse = some "token is expired" := by
      simp only [verifyExpiresAt, parseNumericDate, hx, hx0, if_false, hlt]
    cases hc : validateClaims claims nowParse with
    | some e => exact ⟨e, rfl⟩
    | none =>
      rw [((validateClaims_eq_none claims nowParse).mp hc).1] at hexp
      cases hexp
  obtain ⟨e, hv⟩ := hv
  unfold ValidateToken jwtParse at h
  cases alg with
  | none => simp at h
  | some name =>
    simp only at h
    cases hg : GetSigningMethod name with
    | none => simp [hg] at h
    | some method =>
      simp only [hg] at h
      cases hk : keyFunc j ⟨name, method, claims, sig, false⟩ with
      | error e => simp [hk] at h
      | ok key =>
        simp only [hk, hv] at h
        split_ifs at h

/-- `Load` hands on whatever duration `time.ParseDuration` returns for `JWT_EXPIRY`:
zero, sub-second and negative durations pass unchecked. -/
theorem loadJWTExpiry_unchecked (environ : String → String)
    (ParseDuration : String → Except String Int) (d : Int)
    (h : ParseDuration (getEnv environ "JWT_EXPIRY" "24h") = .ok d) :
    loadJWTExpiry environ ParseDuration = .ok d := by
  simp only [loadJWTExpiry, h]

/-! ## Claims C7 to C10: the token manager -/

/-- C7, amended: for every user whose id a `float64` holds exactly, every configured
expiry of at least one second and every clock reading after the epoch whose expiry
second a `float64` holds exactly, `ValidateToken` applied at the instant of issue to the
token returned by `GenerateToken` succeeds and returns the claims issued: the user's
id, username and e-mail, `iat` the Unix second of `now` and `exp` the Unix second of
`now + expiry`, which is the Unix second of the returned `expires_at`. -/
theorem generate_then_validate_roundtrip (j : JWTManager) (now : Time) (user : User)
    (hexpiry : 1000000000 ≤ j.expiry) (hid : user.ID.natAbs < 2 ^ 53) (hnow : 0 ≤ now)
    (hrange : unix (now + j.expiry) < 2 ^ 53) :
    RoundTripsAt j now user := by
  obtain ⟨hu, hu0, hlt⟩ := unix_after_expiry now j.expiry hnow hexpiry
  have hE : (unix (now + j.expiry)).natAbs < 2 ^ 53 := natAbs_lt_of_bounds _ (by omega) hrange
  have hI : (unix now).natAbs < 2 ^ 53 := natAbs_lt_of_bounds _ hu0 (by omega)
  refine ⟨_, _, GenerateToken_eq j now user, ?_, rfl⟩
  have hv := validateClaims_generated (float64OfInt user.ID : Int) user.Username user.Email
    (unix (now + j.expiry)) (float64OfInt (unix now) : Int) now (by omega) (by omega)
    (by omega)
  rw [if_pos hlt] at hv
  rw [float64OfInt_exact _ hE] at *
  rw [ValidateToken_signed j now now _ hv]
  obtain ⟨h1, h2, h3, h4, h5, _, _⟩ := generated_claims_lookup (float64OfInt user.ID : Int)
    user.Username user.Email ((unix (now + j.expiry) : Int) : ℚ) (float64OfInt (unix now) : Int)
  simp only [extractClaims, h1, h2, h3, h4, h5]
  rw [int64OfFloat_float64OfInt _ hid, int64OfFloat_float64OfInt _ hI,
    int64OfFloat_intCast _ (by omega) (by omega)]
  have hng : ¬ unix now > unix (now + j.expiry) := by omega
  simp only [hng, if_false]

/-- Witness for C7: the default configuration (24 hours), the default user and a clock
reading in November 2023. -/
theorem generate_then_validate_roundtrip_witness :
    RoundTripsAt ⟨"default-secret-key", 86400000000000⟩ 1700000000000000000
      ⟨1, "admin", "admin@company.com", "", 0, 0⟩ :=
  generate_then_validate_roundtrip ⟨"default-secret-key", 86400000000000⟩ 1700000000000000000
    ⟨1, "admin", "admin@company.com", "", 0, 0⟩ (by decide) (by decide) (by decide) (by decide)

/-- Counterexample to C7 as stated: with the expiry 500ms (greater than zero) and the
clock reading 1s, the issued token has `exp = iat = 1` and its immediate validation
fails, the library reporting it expired. -/
theorem generate_then_validate_fails_below_one_second :
    (0 : Int) < (⟨"secret", 500000000⟩ : JWTManager).expiry
      ∧ ¬ RoundTripsAt ⟨"secret", 500000000⟩ 1000000000
          ⟨1, "admin", "admin@company.com", "", 0, 0⟩
      ∧ ∃ tokenString expiresAt,
          GenerateToken ⟨"secret", 500000000⟩ 1000000000
              ⟨1, "admin", "admin@company.com", "", 0, 0⟩ = .ok (tokenString, expiresAt)
            ∧ ValidateToken ⟨"secret", 500000000⟩ 1000000000 1000000000 tokenString
              = .error "failed to parse token: token has invalid claims: token is expired" := by
  have hgen := GenerateToken_eq ⟨"secret", 500000000⟩ 1000000000
    ⟨1, "admin", "admin@company.com", "", 0, 0⟩
  have h1 : float64OfInt 1 = 1 := float64OfInt_exact 1 (by decide)
  have hu1 : unix (1000000000 + 500000000) = 1 := by decide
  have hu2 : unix 1000000000 = 1 := by decide
  simp only [hu1, hu2, h1] at hgen
  have hv := validateClaims_generated ((1 : Int) : ℚ) "admin" "admin@company.com" 1
    ((1 : Int) : ℚ) 1000000000 (by decide) (by decide) (by decide)
  rw [if_neg (by decide)] at hv
  have hval := ValidateToken_signed_invalid ⟨"secret", 500000000⟩ 1000000000 1000000000 _ _ hv
  refine ⟨by decide, ?_, _, _, hgen, ?_⟩
  · rintro ⟨tok, exp, hg, hok, _⟩
    rw [hgen] at hg
    cases hg
    rw [hval] at hok
    cases hok
  · rw [hval]
    exact congrArg Except.error (by decide)

/-- C8, the behaviour of the code at the boundary: a token signed with the secret whose
`exp` is the second 1700000000 reaches `jwt.Parse` a tenth of a second before that
second and the "Check expiration" block within that second. The library check
`now.Before(exp)` passes, the check `time.Now().Unix() > int64(exp)` is `false` at
`now = exp`, and `ValidateToken` returns the claims although `now >= exp`. -/
theorem validateToken_accepts_at_expiry_second :
    unix 1700000000000000000 ≥ 1700000000
      ∧ ValidateToken ⟨"default-secret-key", 86400000000000⟩
          1699999999900000000 1700000000000000000
          (signedHS256 "default-secret-key"
            [("user_id", .number 1), ("username", .string "admin"),
              ("email", .string "admin@company.com"), ("exp", .number 1700000000),
              ("iat", .number 1699913600)])
        = .ok { UserID := 1, Username := "admin", Email := "admin@company.com",
                Exp := 1700000000, Iat := 1699913600 } := by
  refine ⟨by decide, ?_⟩
  have hv := validateClaims_generated 1 "admin" "admin@company.com" 1700000000 1699913600
    1699999999900000000 (by decide) (by decide) (by decide)
  rw [if_pos (by decide)] at hv
  have hv2 : validateClaims [("user_id", .number 1), ("username", .string "admin"),
      ("email", .string "admin@company.com"), ("exp", .number 1700000000),
      ("iat", .number 1699913600)] 1699999999900000000 = Option.none := by
    simpa using hv
  rw [ValidateToken_signed ⟨"default-secret-key", 86400000000000⟩ _ _ _ hv2]
  obtain ⟨h1, h2, h3, h4, h5, _, _⟩ := generated_claims_lookup 1 "admin" "admin@company.com"
    1700000000 1699913600
  simp only [extractClaims, h1, h2, h3, h4, h5]
  have e1 : int64OfFloat 1700000000 = 1700000000 := by
    simpa using int64OfFloat_intCast 1700000000 (by decide) (by decide)
  have e2 : int64OfFloat 1699913600 = 1699913600 := by
    simpa using int64OfFloat_intCast 1699913600 (by decide) (by decide)
  have e3 : int64OfFloat 1 = 1 := by
    simpa using int64OfFloat_intCast 1 (by decide) (by decide)
  rw [e1, e2, e3]
  have hng : ¬ unix 1700000000000000000 > 1700000000 := by decide
  simp only [hng, if_false]

/-- C9, amended: with a configured expiry of at least one second, and a clock whose
seconds a `float64` holds exactly, the token issued by `GenerateToken` carries the
claims `exp` and `iat` of the Unix seconds of `now + expiry` and `now`, and
`exp > iat`. -/
theorem generateToken_exp_after_iat (j : JWTManager) (now : Time) (user : User)
    (hexpiry : 1000000000 ≤ j.expiry) (hlo : -(2 ^ 53) < unix now)
    (hhi : unix (now + j.expiry) < 2 ^ 53) :
    ∃ claims sig e i,
      GenerateToken j now user = .ok (.compact (some "HS256") claims sig, now + j.expiry)
        ∧ claimFloat claims "exp" = some e ∧ claimFloat claims "iat" = some i
        ∧ e = unix (now + j.expiry) ∧ i = unix now ∧ e > i := by
  have hu : unix now < unix (now + j.expiry) := by
    have h := hexpiry
    unfold unix Time
    omega
  have hE : (unix (now + j.expiry)).natAbs < 2 ^ 53 := by omega
  have hI : (unix now).natAbs < 2 ^ 53 := by omega
  obtain ⟨h1, _, h3, _, _, _, _⟩ := generated_claims_lookup (float64OfInt user.ID : Int)
    user.Username user.Email (float64OfInt (unix (now + j.expiry)) : Int)
    (float64OfInt (unix now) : Int)
  refine ⟨_, _, _, _, GenerateToken_eq j now user, h1, h3, ?_, ?_, ?_⟩
  · rw [float64OfInt_exact _ hE]
  · rw [float64OfInt_exact _ hI]
  · rw [float64OfInt_exact _ hE, float64OfInt_exact _ hI]
    exact_mod_cast hu

/-- Witness for C9: the default configuration (24 hours) and a clock reading in
November 2023. -/
theorem generateToken_exp_after_iat_witness :
    ∃ claims sig e i,
      GenerateToken ⟨"default-secret-key", 86400000000000⟩ 1700000000000000000
          ⟨1, "admin", "admin@company.com", "", 0, 0⟩
          = .ok (.compact (some "HS256") claims sig, 1700000000000000000 + 86400000000000)
        ∧ claimFloat claims "exp" = some e ∧ claimFloat claims "iat" = some i
        ∧ e = unix (1700000000000000000 + 86400000000000) ∧ i = unix 1700000000000000000
        ∧ e > i :=
  generateToken_exp_after_iat ⟨"default-secret-key", 86400000000000⟩ 1700000000000000000
    ⟨1, "admin", "admin@company.com", "", 0, 0⟩ (by decide) (by decide) (by decide)

/-- Counterexample to C9 as stated: the expiry `0` (which `time.ParseDuration` returns
for `JWT_EXPIRY=0`) makes `GenerateToken` issue a token whose `exp` equals its `iat`. -/
theorem generateToken_zero_expiry_exp_eq_iat :
    ∃ claims sig expiresAt e i,
      GenerateToken ⟨"default-secret-key", 0⟩ 1700000000000000000
          ⟨1, "admin", "admin@company.com", "", 0, 0⟩
          = .ok (.compact (some "HS256") claims sig, expiresAt)
        ∧ claimFloat claims "exp" = some e ∧ claimFloat claims "iat" = some i
        ∧ ¬ e > i := by
  obtain ⟨h1, _, h3, _, _, _, _⟩ := generated_claims_lookup (float64OfInt 1 : Int)
    "admin" "admin@company.com" (float64OfInt (unix (1700000000000000000 + 0)) : Int)
    (float64OfInt (unix 1700000000000000000) : Int)
  exact ⟨_, _, _, _, _, GenerateToken_eq _ _ _, h1, h3, by simp⟩

/-- C10: for a token whose header declares no signing method of the HMAC family,
`ValidateToken` returns an error, whatever the claims and the signature; the key
function answers every token whose method is not an HMAC method with the error
"unexpected signing method" instead of the secret, and that is the error `jwt.Parse`
reports whenever the declared method is one the library knows. -/
theorem validateToken_rejects_non_hmac (j : JWTManager) (nowParse now : Time)
    (alg : Option String) (claims : MapClaims) (sig : Signature)
    (h : ∀ name, alg = some name → name ∉ ["HS256", "HS384", "HS512"]) :
    (∃ e, ValidateToken j nowParse now (.compact alg claims sig) = .error e)
      ∧ (∀ token : Token, (∀ n, token.Method ≠ .HMAC n) →
          keyFunc j token = .error ("unexpected signing method: " ++ token.alg))
      ∧ (∀ name method, alg = some name → GetSigningMethod name = some method →
          jwtParse (.compact alg claims sig) (keyFunc j) nowParse
            = .error ("token is unverifiable: error while executing keyfunc: "
                ++ ("unexpected signing method: " ++ name))) := by
  have hkey : ∀ token : Token, (∀ n, token.Method ≠ .HMAC n) →
      keyFunc j token = .error ("unexpected signing method: " ++ token.alg) := by
    intro token hm
    unfold keyFunc
    cases hmeth : token.Method with
    | HMAC n => exact absurd hmeth (hm n)
    | _ => rfl
  have hmethod : ∀ name method, name ∉ ["HS256", "HS384", "HS512"] →
      GetSigningMethod name = some method → ∀ n, method ≠ .HMAC n := by
    intro name method hn hg n hm
    unfold GetSigningMethod at hg
    rw [if_neg hn] at hg
    subst hm
    split_ifs at hg <;> cases hg
  have hparse : ∀ name method, alg = some name → GetSigningMethod name = some method →
      jwtParse (.compact alg claims sig) (keyFunc j) nowParse
        = .error ("token is unverifiable: error while executing keyfunc: "
            ++ ("unexpected signing method: " ++ name)) := by
    intro name method ha hg
    subst ha
    have hk := hkey ⟨name, method, claims, sig, false⟩ (hmethod name method (h name rfl) hg)
    simp only [jwtParse, hg, hk]
  refine ⟨?_, hkey, hparse⟩
  cases halg : alg with
  | none =>
    exact ⟨"failed to parse token: "
      ++ "token is unverifiable: signing method (alg) is unspecified",
      by simp only [ValidateToken, jwtParse]⟩
  | some name =>
    cases hg : GetSigningMethod name with
    | none =>
      exact ⟨"failed to parse token: "
        ++ "token is unverifiable: signing method (alg) is unavailable",
        by simp only [ValidateToken, jwtParse, hg]⟩
    | some method =>
      have hp := hparse name method halg hg
      rw [halg] at hp
      exact ⟨"failed to parse token: "
        ++ ("token is unverifiable: error while executing keyfunc: "
          ++ ("unexpected signing method: " ++ name)),
        by simp only [ValidateToken, hp]⟩

/-- Witness for C10: a token declaring the method "none", with the claims of the
default user and an arbitrary signature. -/
theorem validateToken_rejects_non_hmac_witness :
    ∃ e, ValidateToken ⟨"default-secret-key", 86400000000000⟩ 1700000000000000000
        1700000000000000000
        (.compact (some "none")
          [("user_id", .number 1), ("username", .string "admin"),
            ("email", .string "admin@company.com"), ("exp", .number 1800000000),
            ("iat", .number 1700000000)] (.other 0)) = .error e :=
  (validateToken_rejects_non_hmac ⟨"default-secret-key", 86400000000000⟩ 1700000000000000000
    1700000000000000000 (some "none") _ (.other 0)
    (fun name hn => by
      cases hn
      decide)).1

/-! ## Shared lemmas: placeholders of the list queries -/

set_option maxRecDepth 1000000 in
theorem baseQuery_placeholders (f : EmployeeFilter) :
    placeholders (listQueries f).baseQuery
      = List.range' 1 (totalArity (presentKinds f) + 2) := by
  rw [listQueries_eq]
  simp only [presentKinds]
  cases hA : f.IsActive <;> by_cases hD : f.Department = "" <;> by_cases hP : f.Position = ""
    <;> by_cases hS : f.Search = ""
    <;> simp only [hA, hD, hP, hS, FilterKind.present, List.filter, ne_eq, not_true_eq_false,
      not_false_eq_true, decide_True, decide_False, Option.isSome]
    <;> decide

theorem orderBy_limit_text (k : Nat) :
    " ORDER BY created_at DESC" ++ (" LIMIT " ++ dollar k ++ " OFFSET " ++ dollar (k + 1))
      = " ORDER BY created_at DESC LIMIT " ++ dollar k ++ " OFFSET " ++ dollar (k + 1) := by
  have h : " ORDER BY created_at DESC LIMIT " = " ORDER BY created_at DESC" ++ " LIMIT " := by
    decide
  rw [h]
  simp only [String.append_assoc]

/-! ## Claims C19 and C20: placeholders and the search pattern -/

/-- C19: for every filter, the SELECT text of `GetEmployees` is the select head, then
the WHERE clause (if any), then `" ORDER BY created_at DESC LIMIT $k OFFSET $(k+1)"`,
where `k - 1` is the number of filter arguments (one each for department, position and
is_active, three for search); the placeholders occurring in the text are `$1` to
`$(k+1)`, each once and in increasing order; the argument list has `k + 1` entries and
its last two entries are the effective limit and offset. -/
theorem getEmployees_placeholders_consecutive (filter : EmployeeFilter) :
    (listQueries filter).baseQuery
        = baseQuery0 ++ whereClause (filterState (setDefaults filter)).conditions
          ++ (" ORDER BY created_at DESC LIMIT "
            ++ dollar ((listQueries filter).countArgs.length + 1)
            ++ " OFFSET " ++ dollar ((listQueries filter).countArgs.length + 1 + 1))
      ∧ (listQueries filter).countArgs.length
        = ((presentKinds filter).map FilterKind.arity).sum
      ∧ placeholders (listQueries filter).baseQuery
        = List.range' 1 ((listQueries filter).countArgs.length + 1 + 1)
      ∧ (listQueries filter).args.length = (listQueries filter).countArgs.length + 1 + 1
      ∧ (listQueries filter).args[(listQueries filter).countArgs.length]?
        = some (SqlArg.int (setDefaults filter).Limit)
      ∧ (listQueries filter).args[(listQueries filter).countArgs.length + 1]?
        = some (SqlArg.int (setDefaults filter).Offset) := by
  have hp := baseQuery_placeholders filter
  have hlen : (listQueries filter).countArgs.length = totalArity (presentKinds filter) := by
    rw [listQueries_eq]
    exact values_length filter
  have hargs : (listQueries filter).args = (listQueries filter).countArgs
      ++ [.int (setDefaults filter).Limit, .int (setDefaults filter).Offset] := by
    rw [listQueries_eq]
  refine ⟨?_, hlen, ?_, ?_, ?_, ?_⟩
  · rw [hlen, String.append_assoc, ← orderBy_limit_text, ← String.append_assoc,
      filterState_eq, presentKinds_setDefaults, listQueries_eq]
    rw [show totalArity (presentKinds filter) + 1 = 1 + totalArity (presentKinds filter) by omega]
    simp only [String.append_assoc]
  · rw [hp, hlen]
  · rw [hargs]
    simp
  · rw [hargs, List.getElem?_append_right (le_refl _)]
    simp
  · rw [hargs, List.getElem?_append_right (by omega)]
    simp


/-- C20: for every non-empty search string `s`, the three arguments `GetEmployees` binds
for the search predicate (the last three filter arguments, bound to the placeholders of
`name ILIKE`, `email ILIKE` and `nip ILIKE`) are all the pattern `"%" ++ s ++ "%"`,
whose characters are `%`, the characters of `s` unchanged, and `%`: the characters `%`
and `_` of `s` are neither escaped nor rewritten. -/
theorem getEmployees_search_pattern_verbatim (filter : EmployeeFilter)
    (hs : filter.Search ≠ "") :
    ∃ (before : List SqlArg) (i : Nat),
      i = before.length + 1
        ∧ (listQueries filter).countArgs
          = before ++ [.str ("%" ++ filter.Search ++ "%"), .str ("%" ++ filter.Search ++ "%"),
              .str ("%" ++ filter.Search ++ "%")]
        ∧ (listQueries filter).args
          = before ++ [.str ("%" ++ filter.Search ++ "%"), .str ("%" ++ filter.Search ++ "%"),
              .str ("%" ++ filter.Search ++ "%"), .int (setDefaults filter).Limit,
              .int (setDefaults filter).Offset]
        ∧ (filterState (setDefaults filter)).conditions.getLast?
          = some ("(name ILIKE " ++ dollar i ++ " OR email ILIKE " ++ dollar (i + 1)
              ++ " OR nip ILIKE " ++ dollar (i + 2) ++ ")")
        ∧ ("%" ++ filter.Search ++ "%").toList = '%' :: (filter.Search.toList ++ ['%']) := by
  refine ⟨((presentKinds filter).filter (fun k => decide (k ≠ FilterKind.search))).flatMap
    (FilterKind.values filter), _, rfl, ?_, ?_, ?_, ?_⟩
  · rw [listQueries_eq]
    simp only [presentKinds]
    cases hA : filter.IsActive <;> by_cases hD : filter.Department = ""
      <;> by_cases hP : filter.Position = ""
      <;> simp [hA, hD, hP, hs, FilterKind.present, List.filter, FilterKind.values,
        List.flatMap]
  · rw [listQueries_eq]
    simp only [presentKinds]
    cases hA : filter.IsActive <;> by_cases hD : filter.Department = ""
      <;> by_cases hP : filter.Position = ""
      <;> simp [hA, hD, hP, hs, FilterKind.present, List.filter, FilterKind.values,
        List.flatMap]
  · rw [filterState_eq, presentKinds_setDefaults]
    simp only [presentKinds]
    cases hA : filter.IsActive <;> by_cases hD : filter.Department = ""
      <;> by_cases hP : filter.Position = ""
      <;> simp [hA, hD, hP, hs, FilterKind.present, List.filter, FilterKind.values,
        List.flatMap, predicatesFrom, FilterKind.predicate, FilterKind.arity]
  · show ("%" ++ filter.Search ++ "%").data = _
    simp [String.data_append]

/-- Witness for C20: the search string `50%_off`. -/
theorem getEmployees_search_pattern_verbatim_witness :
    ∃ (before : List SqlArg) (i : Nat),
      i = before.length + 1
        ∧ (listQueries ⟨"", "", none, "50%_off", 0, 0⟩).countArgs
          = before ++ [.str ("%" ++ "50%_off" ++ "%"), .str ("%" ++ "50%_off" ++ "%"),
              .str ("%" ++ "50%_off" ++ "%")]
        ∧ (listQueries ⟨"", "", none, "50%_off", 0, 0⟩).args
          = before ++ [.str ("%" ++ "50%_off" ++ "%"), .str ("%" ++ "50%_off" ++ "%"),
              .str ("%" ++ "50%_off" ++ "%"),
              .int (setDefaults ⟨"", "", none, "50%_off", 0, 0⟩).Limit,
              .int (setDefaults ⟨"", "", none, "50%_off", 0, 0⟩).Offset]
        ∧ (filterState (setDefaults ⟨"", "", none, "50%_off", 0, 0⟩)).conditions.getLast?
          = some ("(name ILIKE " ++ dollar i ++ " OR email ILIKE " ++ dollar (i + 1)
              ++ " OR nip ILIKE " ++ dollar (i + 2) ++ ")")
        ∧ ("%" ++ "50%_off" ++ "%").toList = '%' :: ("50%_off".toList ++ ['%']) :=
  getEmployees_search_pattern_verbatim ⟨"", "", none, "50%_off", 0, 0⟩ (by decide)

/-! ## Shared lemmas: claim extraction -/

theorem jwtParse_ok_claims (ts : TokenString) (kf : Token → Except String String)
    (now : Time) (token : Token) (h : jwtParse ts kf now = .ok token) :
    ∃ alg sig, ts = .compact alg token.Claims sig := by
  unfold jwtParse at h
  cases ts with
  | malformed => simp at h
  | compact alg claims sig =>
    cases alg with
    | none => simp at h
    | some name =>
      simp only at h
      cases hg : GetSigningMethod name with
      | none => simp [hg] at h
      | some method =>
        simp only [hg] at h
        cases hk : kf ⟨name, method, claims, sig, false⟩ with
        | error e => simp [hk] at h
        | ok key =>
          simp only [hk] at h
          split_ifs at h
          cases hv : validateClaims claims now with
          | some e => simp [hv] at h
          | none =>
            simp only [hv] at h
            cases h
            exact ⟨_, _, rfl⟩

theorem extractClaims_bad (now : Time) (claims : MapClaims) (h : HasBadClaim claims) :
    ∃ e, extractClaims now claims = .error e := by
  unfold extractClaims
  cases h1 : claimFloat claims "exp" with
  | none => exact ⟨_, rfl⟩
  | some exp =>
    simp only []
    split_ifs
    · exact ⟨_, rfl⟩
    · cases h2 : claimFloat claims "user_id" with
      | none => exact ⟨_, rfl⟩
      | some uid =>
        cases h3 : claimString claims "username" with
        | none => exact ⟨_, rfl⟩
        | some un =>
          cases h4 : claimString claims "email" with
          | none => exact ⟨_, rfl⟩
          | some em =>
            cases h5 : claimFloat claims "iat" with
            | none => exact ⟨_, rfl⟩
            | some iat =>
              exfalso
              rcases h with h | h | h | h | h <;> simp_all

theorem GetSigningMethod_hmac (alg : String) (h : alg ∈ ["HS256", "HS384", "HS512"]) :
    GetSigningMethod alg = some (.HMAC alg) := by
  unfold GetSigningMethod
  rw [if_pos h]

theorem jwtParse_signedHMAC (j : JWTManager) (nowParse : Time) (alg : String)
    (claims : MapClaims) (halg : alg ∈ ["HS256", "HS384", "HS512"]) :
    jwtParse (signedHMAC alg j.secret claims) (keyFunc j) nowParse
      = match validateClaims claims nowParse with
        | some e => .error ("token has invalid claims: " ++ e)
        | Option.none => .ok { alg := alg, Method := .HMAC alg, Claims := claims,
                               Signature := .hmac alg j.secret claims, Valid := true } := by
  simp only [jwtParse, signedHMAC, GetSigningMethod_hmac alg halg, keyFunc,
    SigningMethod.Verify, decide_True, Bool.true_eq_false, if_false]

theorem ValidateToken_signedHMAC (j : JWTManager) (nowParse now : Time) (alg : String)
    (claims : MapClaims) (halg : alg ∈ ["HS256", "HS384", "HS512"])
    (h : validateClaims claims nowParse = Option.none) :
    ValidateToken j nowParse now (signedHMAC alg j.secret claims) = extractClaims now claims := by
  simp only [ValidateToken, jwtParse_signedHMAC j nowParse alg claims halg, h,
    Bool.true_eq_false, if_false]

theorem ValidateToken_bad_claims (j : JWTManager) (nowParse now : Time)
    (alg : Option String) (claims : MapClaims) (sig : Signature) (h : HasBadClaim claims) :
    ∃ e, ValidateToken j nowParse now (.compact alg claims sig) = .error e := by
  unfold ValidateToken
  cases hp : jwtParse (.compact alg claims sig) (keyFunc j) nowParse with
  | error e => exact ⟨_, rfl⟩
  | ok token =>
    obtain ⟨alg2, sig2, heq⟩ := jwtParse_ok_claims _ _ _ _ hp
    have hc : token.Claims = claims := by
      cases heq
      rfl
    simp only [hc]
    split_ifs
    · exact ⟨_, rfl⟩
    · exact extractClaims_bad now claims h

theorem verifyExpiresAt_mistyped (claims : MapClaims) (nowParse : Time) (v : ClaimValue)
    (hv : claims.lookup "exp" = some v) (hn : ∀ x, v ≠ .number x) :
    verifyExpiresAt claims nowParse = some "invalid type for claim: exp is invalid" := by
  have hp : parseNumericDate claims "exp" = .error "exp is invalid" := by
    unfold parseNumericDate
    rw [hv]
    cases v with
    | number x => exact absurd rfl (hn x)
    | _ => rfl
  simp only [verifyExpiresAt, hp]
  decide

theorem option_ne_none {α : Type} {o : Option α} (h : o ≠ Option.none) : ∃ x, o = some x := by
  cases o with
  | none => exact absurd rfl h
  | some x => exact ⟨x, rfl⟩

/-! ## Claim C11: missing and mistyped claims -/

/-- C11: a token one of whose claims `exp`, `user_id`, `username`, `email`, `iat` is
missing or mistyped never yields claims: `ValidateToken` returns an error, whatever the
signature and the clock. For a token correctly signed with the secret the error names
the offending claim: a mistyped `exp` is reported by `jwt.Parse` ("exp is invalid"),
alone when the not-before check passes and followed by the message of that check when
it fails; within the validity period, that is when the expiry and not-before checks of
`jwt.Parse` pass and the later reading is not past `exp`, a missing `exp` gives
"invalid expiration claim" and the first missing or mistyped claim among `user_id`,
`username`, `email`, `iat` gives "invalid user_id claim", "invalid username claim",
"invalid email claim" or "invalid iat claim". Every extraction step is a checked type
assertion, an optional value here, so none panics. -/
theorem validateToken_rejects_bad_claims (j : JWTManager) (nowParse now : Time)
    (alg : String) (claims : MapClaims) (halg : alg ∈ ["HS256", "HS384", "HS512"]) :
    (HasBadClaim claims → ∀ (a : Option String) (sig : Signature),
        ∃ e, ValidateToken j nowParse now (.compact a claims sig) = .error e)
      ∧ (∀ v, claims.lookup "exp" = some v → (∀ x, v ≠ .number x) →
          (verifyNotBefore claims nowParse = Option.none →
            ValidateToken j nowParse now (signedHMAC alg j.secret claims)
              = .error ("failed to parse token: token has invalid claims: "
                  ++ "invalid type for claim: exp is invalid"))
          ∧ (∀ e, verifyNotBefore claims nowParse = some e →
            ValidateToken j nowParse now (signedHMAC alg j.secret claims)
              = .error ("failed to parse token: token has invalid claims: "
                  ++ "invalid type for claim: exp is invalid" ++ ", " ++ e)))
      ∧ (TimeValid claims nowParse now →
          (claimFloat claims "exp" = Option.none →
            ValidateToken j nowParse now (signedHMAC alg j.secret claims)
              = .error "invalid expiration claim")
          ∧ (claimFloat claims "exp" ≠ Option.none →
              claimFloat claims "user_id" = Option.none →
            ValidateToken j nowParse now (signedHMAC alg j.secret claims)
              = .error "invalid user_id claim")
          ∧ (claimFloat claims "exp" ≠ Option.none →
              claimFloat claims "user_id" ≠ Option.none →
              claimString claims "username" = Option.none →
            ValidateToken j nowParse now (signedHMAC alg j.secret claims)
              = .error "invalid username claim")
          ∧ (claimFloat claims "exp" ≠ Option.none →
              claimFloat claims "user_id" ≠ Option.none →
              claimString claims "username" ≠ Option.none →
              claimString claims "email" = Option.none →
            ValidateToken j nowParse now (signedHMAC alg j.secret claims)
              = .error "invalid email claim")
          ∧ (claimFloat claims "exp" ≠ Option.none →
              claimFloat claims "user_id" ≠ Option.none →
              claimString claims "username" ≠ Option.none →
              claimString claims "email" ≠ Option.none →
              claimFloat claims "iat" = Option.none →
            ValidateToken j nowParse now (signedHMAC alg j.secret claims)
              = .error "invalid iat claim")) := by
  refine ⟨fun h a sig => ValidateToken_bad_claims j nowParse now a claims sig h, ?_, ?_⟩
  · intro v hv hn
    have h := verifyExpiresAt_mistyped claims nowParse v hv hn
    constructor
    · intro hnbf
      have hval : validateClaims claims nowParse
          = some "invalid type for claim: exp is invalid" := by
        simp only [validateClaims, h, hnbf]
        rfl
      simp only [ValidateToken, jwtParse_signedHMAC j nowParse alg claims halg, hval]
      exact congrArg Except.error (by decide)
    · intro e hnbf
      have hval : validateClaims claims nowParse
          = some ("invalid type for claim: exp is invalid" ++ ", " ++ e) := by
        simp only [validateClaims, h, hnbf]
        rfl
      simp only [ValidateToken, jwtParse_signedHMAC j nowParse alg claims halg, hval]
      refine congrArg Except.error ?_
      simp only [← String.append_assoc]
      exact congrArg (fun t => t ++ ", " ++ e) (by decide)
  · rintro ⟨hlib, hexp⟩
    rw [ValidateToken_signedHMAC j nowParse now alg claims halg hlib]
    unfold extractClaims
    refine ⟨?_, ?_, ?_, ?_, ?_⟩
    · intro h1
      simp only [h1]
    · intro h1 h2
      obtain ⟨x, hx⟩ := option_ne_none h1
      simp only [hx, hexp x hx, if_false, h2]
    · intro h1 h2 h3
      obtain ⟨x, hx⟩ := option_ne_none h1
      obtain ⟨u, hu⟩ := option_ne_none h2
      simp only [hx, hexp x hx, if_false, hu, h3]
    · intro h1 h2 h3 h4
      obtain ⟨x, hx⟩ := option_ne_none h1
      obtain ⟨u, hu⟩ := option_ne_none h2
      obtain ⟨n, hn⟩ := option_ne_none h3
      simp only [hx, hexp x hx, if_false, hu, hn, h4]
    · intro h1 h2 h3 h4 h5
      obtain ⟨x, hx⟩ := option_ne_none h1
      obtain ⟨u, hu⟩ := option_ne_none h2
      obtain ⟨n, hn⟩ := option_ne_none h3
      obtain ⟨m, hm⟩ := option_ne_none h4
      simp only [hx, hexp x hx, if_false, hu, hn, hm, h5]

theorem timeValid_example :
    TimeValid [("username", .string "admin"), ("email", .string "admin@company.com"),
        ("exp", .number 1800000000), ("iat", .number 1700000000)]
      1700000000000000000 1700000000000000000 := by
  have hl : List.lookup "exp" [("username", ClaimValue.string "admin"),
      ("email", .string "admin@company.com"), ("exp", .number 1800000000),
      ("iat", .number 1700000000)] = some (.number 1800000000) := by
    simp [List.lookup]
  have hn : List.lookup "nbf" [("username", ClaimValue.string "admin"),
      ("email", .string "admin@company.com"), ("exp", .number 1800000000),
      ("iat", .number 1700000000)] = Option.none := by
    simp [List.lookup]
  have hd : newNumericDateFromSeconds 1800000000 = 1800000000 * 1000000000 := by
    simpa using newNumericDateFromSeconds_intCast 1800000000 (by decide) (by decide)
  have e1 : int64OfFloat 1800000000 = 1800000000 := by
    simpa using int64OfFloat_intCast 1800000000 (by decide) (by decide)
  constructor
  · rw [validateClaims_eq_none]
    have h0 : ((1800000000 : ℚ) = 0) = False := by norm_num
    constructor
    · simp only [verifyExpiresAt, parseNumericDate, hl, h0, if_false, hd]
      rw [if_pos (by decide)]
    · simp only [verifyNotBefore, parseNumericDate, hn]
  · intro x hx
    simp only [claimFloat, hl, Option.some.injEq] at hx
    subst hx
    rw [e1]
    decide

/-- Witness for C11: a token signed HS256 with the secret, valid until 2027, that lacks
the claim `user_id`, presented in November 2023. -/
theorem validateToken_rejects_bad_claims_witness :
    ValidateToken ⟨"default-secret-key", 86400000000000⟩ 1700000000000000000
        1700000000000000000
        (signedHMAC "HS256" "default-secret-key"
          [("username", .string "admin"), ("email", .string "admin@company.com"),
            ("exp", .number 1800000000), ("iat", .number 1700000000)])
      = .error "invalid user_id claim" :=
  ((validateToken_rejects_bad_claims ⟨"default-secret-key", 86400000000000⟩
      1700000000000000000 1700000000000000000 "HS256"
      [("username", .string "admin"), ("email", .string "admin@company.com"),
        ("exp", .number 1800000000), ("iat", .number 1700000000)] (by decide)).2.2
    timeValid_example).2.1 (by simp [claimFloat, List.lookup]) (by simp [claimFloat, List.lookup])

/-! ## Claim C12: the password policy -/

/-- `IsValidPassword` accepts exactly the passwords of at least 6 bytes. -/
theorem IsValidPassword_iff_bytes (password : String) :
    IsValidPassword password = true ↔ 6 ≤ password.utf8ByteSize := by
  unfold IsValidPassword
  split_ifs with h
  · simp only [Bool.false_eq_true, false_iff, not_le]
    exact h
  · simp only [true_iff]
    omega

theorem utf8ByteSize_go_ge (cs : List Char) : cs.length ≤ String.utf8ByteSize.go cs := by
  induction cs with
  | nil => simp [String.utf8ByteSize.go]
  | cons c cs ih =>
    have hc : 0 < c.utf8Size := Char.utf8Size_pos c
    simp only [String.utf8ByteSize.go, List.length_cons]
    omega

/-- Every password of at least 6 characters is accepted. -/
theorem IsValidPassword_of_length (password : String) (h : 6 ≤ password.length) :
    IsValidPassword password = true := by
  rw [IsValidPassword_iff_bytes]
  have := utf8ByteSize_go_ge password.data
  have hl : password.length = password.data.length := rfl
  have hb : password.utf8ByteSize = String.utf8ByteSize.go password.data := by
    cases password
    rfl
  omega

/-- C12, the behaviour of the code on a multi-byte password: `"ééé"` has 3 characters
and 6 bytes, and `IsValidPassword` accepts it. -/
theorem isValidPassword_accepts_three_characters :
    "ééé".length = 3 ∧ "ééé".utf8ByteSize = 6 ∧ IsValidPassword "ééé" = true := by
  decide

/-! ## Claim C14: the bearer token middleware -/

theorem HasPrefix_append (p t : String) : HasPrefix (p ++ t) p = true := by
  unfold HasPrefix
  rw [decide_eq_true_iff]
  show p.data <+: (p ++ t).data
  rw [String.data_append]
  exact List.prefix_append _ _

theorem TrimPrefix_append (p t : String) : TrimPrefix (p ++ t) p = t := by
  unfold TrimPrefix
  rw [if_pos (HasPrefix_append p t)]
  show String.mk ((p ++ t).data.drop p.data.length) = t
  rw [String.data_append, List.drop_left]

theorem eq_append_of_HasPrefix (s p : String) (h : HasPrefix s p = true) :
    s = p ++ TrimPrefix s p := by
  have h2 := h
  unfold HasPrefix at h2
  rw [decide_eq_true_iff] at h2
  obtain ⟨r, hr⟩ := h2
  have hs : s = p ++ String.mk r := by
    apply String.ext
    rw [String.data_append]
    exact hr.symm
  rw [hs, TrimPrefix_append]

/-- What `RequireAuth` does once the header carries a non-empty bearer token. -/
theorem RequireAuth_bearer (j : JWTManager) (decode : String → TokenString)
    (nowParse now : Time) (token : String) (ht : token ≠ "") :
    RequireAuth j decode nowParse now ("Bearer " ++ token)
      = match ValidateToken j nowParse now (decode token) with
        | .error err => .abort ⟨401, NewErrorResponse "Invalid token" err⟩
        | .ok claims =>
          .next { user_id := claims.UserID, username := claims.Username,
                  email := claims.Email, claims := claims } := by
  have hne : ("Bearer " ++ token) ≠ "" := by
    intro h
    have h2 := congrArg String.length h
    simp only [String.length_append] at h2
    have h3 : "Bearer ".length = 7 := by decide
    have h4 : "".length = 0 := rfl
    omega
  unfold RequireAuth
  rw [if_neg hne]
  simp only [HasPrefix_append, Bool.true_eq_false, if_false, TrimPrefix_append, ht]

/-- C14: `RequireAuth` answers 401 and aborts the chain when the Authorization header is
absent or empty ("Authorization required"), when it does not start with `"Bearer "`
("Invalid authorization format"), and when it is exactly `"Bearer "` ("Token required");
the three messages are pairwise distinct. Every header falls in exactly one of these
three cases or is `"Bearer "` followed by a non-empty token, which is passed to
`ValidateToken`; the next handler runs only when `ValidateToken` returns claims, and
otherwise the chain is aborted with 401. -/
theorem requireAuth_cases (j : JWTManager) (decode : String → TokenString)
    (nowParse now : Time) (authHeader : String) :
    ((authHeader = ""
          ∧ RequireAuth j decode nowParse now authHeader
            = .abort ⟨401, NewErrorResponse "Authorization required"
                "Missing Authorization header"⟩)
        ∨ (authHeader ≠ "" ∧ HasPrefix authHeader "Bearer " = false
          ∧ RequireAuth j decode nowParse now authHeader
            = .abort ⟨401, NewErrorResponse "Invalid authorization format"
                "Authorization header must start with 'Bearer '"⟩)
        ∨ (authHeader = "Bearer "
          ∧ RequireAuth j decode nowParse now authHeader
            = .abort ⟨401, NewErrorResponse "Token required" "Empty token provided"⟩)
        ∨ (∃ token, token ≠ "" ∧ authHeader = "Bearer " ++ token
          ∧ ((∃ err, ValidateToken j nowParse now (decode token) = .error err
                ∧ RequireAuth j decode nowParse now authHeader
                  = .abort ⟨401, NewErrorResponse "Invalid token" err⟩)
            ∨ (∃ claims, ValidateToken j nowParse now (decode token) = .ok claims
                ∧ RequireAuth j decode nowParse now authHeader
                  = .next { user_id := claims.UserID, username := claims.Username,
                            email := claims.Email, claims := claims }))))
      ∧ (HasPrefix "" "Bearer " = false ∧ HasPrefix "Bearer " "Bearer " = true
        ∧ ∀ token, HasPrefix ("Bearer " ++ token) "Bearer " = true
          ∧ (token ≠ "" → "Bearer " ++ token ≠ "Bearer "))
      ∧ ("Authorization required" ≠ "Invalid authorization format"
        ∧ "Authorization required" ≠ "Token required"
        ∧ "Invalid authorization format" ≠ "Token required")
      ∧ (∀ ctx, RequireAuth j decode nowParse now authHeader = .next ctx →
          ∃ token claims, token ≠ "" ∧ authHeader = "Bearer " ++ token
            ∧ ValidateToken j nowParse now (decode token) = .ok claims
            ∧ ctx = { user_id := claims.UserID, username := claims.Username,
                      email := claims.Email, claims := claims }) := by
  have hcases : (authHeader = ""
          ∧ RequireAuth j decode nowParse now authHeader
            = .abort ⟨401, NewErrorResponse "Authorization required"
                "Missing Authorization header"⟩)
        ∨ (authHeader ≠ "" ∧ HasPrefix authHeader "Bearer " = false
          ∧ RequireAuth j decode nowParse now authHeader
            = .abort ⟨401, NewErrorResponse "Invalid authorization format"
                "Authorization header must start with 'Bearer '"⟩)
        ∨ (authHeader = "Bearer "
          ∧ RequireAuth j decode nowParse now authHeader
            = .abort ⟨401, NewErrorResponse "Token required" "Empty token provided"⟩)
        ∨ (∃ token, token ≠ "" ∧ authHeader = "Bearer " ++ token
          ∧ ((∃ err, ValidateToken j nowParse now (decode token) = .error err
                ∧ RequireAuth j decode nowParse now authHeader
                  = .abort ⟨401, NewErrorResponse "Invalid token" err⟩)
            ∨ (∃ claims, ValidateToken j nowParse now (decode token) = .ok claims
                ∧ RequireAuth j decode nowParse now authHeader
                  = .next { user_id := claims.UserID, username := claims.Username,
                            email := claims.Email, claims := claims }))) := by
    by_cases h0 : authHeader = ""
    · left
      exact ⟨h0, by simp only [RequireAuth, h0, if_true]⟩
    · right
      cases hp : HasPrefix authHeader "Bearer " with
      | false =>
        left
        exact ⟨h0, rfl, by simp only [RequireAuth, h0, if_false, hp, if_true]⟩
      | true =>
        right
        have heq := eq_append_of_HasPrefix authHeader "Bearer " hp
        by_cases ht : TrimPrefix authHeader "Bearer " = ""
        · left
          have hb : authHeader = "Bearer " := by
            rw [heq, ht]
            rfl
          refine ⟨hb, ?_⟩
          simp only [RequireAuth, h0, if_false, hp, Bool.true_eq_false, ht, if_true]
        · right
          refine ⟨TrimPrefix authHeader "Bearer ", ht, heq, ?_⟩
          rw [heq, TrimPrefix_append, RequireAuth_bearer j decode nowParse now _ ht]
          cases hv : ValidateToken j nowParse now (decode (TrimPrefix authHeader "Bearer ")) with
          | error err => exact Or.inl ⟨err, rfl, rfl⟩
          | ok claims => exact Or.inr ⟨claims, rfl, rfl⟩
  refine ⟨hcases, ⟨by decide, by decide, fun token => ⟨HasPrefix_append _ _, ?_⟩⟩,
    ⟨by decide, by decide, by decide⟩, ?_⟩
  · intro ht h
    apply ht
    have hl := congrArg String.data h
    rw [String.data_append] at hl
    have : token.data = [] := by
      have h2 : "Bearer ".data ++ token.data = "Bearer ".data ++ [] := by simpa using hl
      exact List.append_cancel_left h2
    exact String.ext this
  · intro ctx hctx
    rcases hcases with ⟨_, h⟩ | ⟨_, _, h⟩ | ⟨_, h⟩ | ⟨token, ht, heq, hv⟩
    · rw [h] at hctx
      cases hctx
    · rw [h] at hctx
      cases hctx
    · rw [h] at hctx
      cases hctx
    · rcases hv with ⟨err, _, h⟩ | ⟨claims, hc, h⟩
      · rw [h] at hctx
        cases hctx
      · rw [h] at hctx
        cases hctx
        exact ⟨token, claims, ht, heq, hc, rfl⟩

/-- Witness for C14: a header with the scheme `Basic` never reaches the next handler. -/
theorem requireAuth_cases_witness :
    ¬ ∃ ctx, RequireAuth ⟨"default-secret-key", 86400000000000⟩ (fun _ => .malformed)
        1700000000000000000 1700000000000000000 "Basic YWRtaW4=" = .next ctx := by
  rintro ⟨ctx, h⟩
  obtain ⟨token, _, _, heq, _, _⟩ :=
    (requireAuth_cases ⟨"default-secret-key", 86400000000000⟩ (fun _ => .malformed)
      1700000000000000000 1700000000000000000 "Basic YWRtaW4=").2.2.2 ctx h
  have hp := HasPrefix_append "Bearer " token
  rw [← heq] at hp
  exact absurd hp (by decide)

/-! ## Claim C13: uniform login failures -/

theorem Login_unknown_user {σ : Type} (db : DB σ) (compare : Bcrypt) (j : JWTManager)
    (now : Time) (req : LoginRequest) (w : World σ)
    (h : (db.QueryRowUser ⟨userByUsernameQuery, [.str req.Username]⟩ w.store).1
      = .error .noRows) :
    (Login db compare j now (.ok req) w).1
      = ⟨401, NewErrorResponse "Authentication failed" "Invalid username or password"⟩ := by
  simp only [Login, World.queryRowUser, h]

theorem Login_wrong_password {σ : Type} (db : DB σ) (compare : Bcrypt) (j : JWTManager)
    (now : Time) (req : LoginRequest) (w : World σ) (user : User)
    (h : (db.QueryRowUser ⟨userByUsernameQuery, [.str req.Username]⟩ w.store).1 = .ok user)
    (hpw : CheckPassword compare req.Password user.PasswordHash ≠ none) :
    (Login db compare j now (.ok req) w).1
      = ⟨401, NewErrorResponse "Authentication failed" "Invalid username or password"⟩ := by
  obtain ⟨e, he⟩ := option_ne_none hpw
  simp only [Login, World.queryRowUser, h, he]

/-- C13: `Login` answers a request for an unknown username (the lookup finds no row) and
a request for a known username with a wrong password (`CheckPassword` fails) with the
same response: status 401, message "Authentication failed", error text "Invalid
username or password". -/
theorem login_failures_indistinguishable {σ τ : Type} (db : DB σ) (db2 : DB τ)
    (compare : Bcrypt) (j : JWTManager) (now now2 : Time) (req req2 : LoginRequest)
    (w : World σ) (w2 : World τ) (user : User)
    (hunknown : (db.QueryRowUser ⟨userByUsernameQuery, [.str req.Username]⟩ w.store).1
      = .error .noRows)
    (hknown : (db2.QueryRowUser ⟨userByUsernameQuery, [.str req2.Username]⟩ w2.store).1
      = .ok user)
    (hwrong : CheckPassword compare req2.Password user.PasswordHash ≠ none) :
    (Login db compare j now (.ok req) w).1 = (Login db2 compare j now2 (.ok req2) w2).1
      ∧ (Login db compare j now (.ok req) w).1.status = 401
      ∧ (Login db compare j now (.ok req) w).1.body.Message = "Authentication failed"
      ∧ (Login db compare j now (.ok req) w).1.body.Error = "Invalid username or password"
      ∧ (Login db2 compare j now2 (.ok req2) w2).1.status = 401
      ∧ (Login db2 compare j now2 (.ok req2) w2).1.body.Message = "Authentication failed"
      ∧ (Login db2 compare j now2 (.ok req2) w2).1.body.Error
        = "Invalid username or password" := by
  have h1 := Login_unknown_user db compare j now req w hunknown
  have h2 := Login_wrong_password db2 compare j now2 req2 w2 user hknown hwrong
  rw [h1, h2]
  exact ⟨rfl, rfl, rfl, rfl, rfl, rfl, rfl⟩

/-- Witness for C13: the requests `nosuchuser`/`x` against a store without that user and
`admin`/`wrongpass` against a store holding `admin`, with a comparison that accepts no
password. -/
theorem login_failures_indistinguishable_witness :
    (Login (userStubDB (.error .noRows)) (fun _ _ => some "mismatch")
        ⟨"default-secret-key", 86400000000000⟩ 1700000000000000000
        (.ok ⟨"nosuchuser", "x"⟩) ⟨(), []⟩).1
      = (Login (userStubDB (.ok ⟨1, "admin", "admin@company.com", "hash", 0, 0⟩))
        (fun _ _ => some "mismatch") ⟨"default-secret-key", 86400000000000⟩
        1700000000000000001 (.ok ⟨"admin", "wrongpass"⟩) ⟨(), []⟩).1 :=
  (login_failures_indistinguishable (userStubDB (.error .noRows))
    (userStubDB (.ok ⟨1, "admin", "admin@company.com", "hash", 0, 0⟩))
    (fun _ _ => some "mismatch") ⟨"default-secret-key", 86400000000000⟩ 1700000000000000000
    1700000000000000001 ⟨"nosuchuser", "x"⟩ ⟨"admin", "wrongpass"⟩ ⟨(), []⟩ ⟨(), []⟩
    ⟨1, "admin", "admin@company.com", "hash", 0, 0⟩ rfl rfl (by simp [CheckPassword])).1

/-! ## Shared lemmas: the store model -/

theorem countWhere_pos {α : Type} (p : α → Bool) (rows : List α) (a : α) (ha : a ∈ rows)
    (hp : p a = true) : countWhere p rows > 0 := by
  unfold countWhere
  have : 0 < (rows.filter p).length :=
    List.length_pos_of_mem (List.mem_filter.mpr ⟨ha, hp⟩)
  omega

theorem countWhere_eq_zero {α : Type} (p : α → Bool) (rows : List α)
    (h : ∀ a ∈ rows, p a = false) : countWhere p rows = 0 := by
  unfold countWhere
  have : rows.filter p = [] := by
    rw [List.filter_eq_nil_iff]
    intro a ha
    simp [h a ha]
  simp [this]

theorem memDB_nipCount (s : Store) (nip : String) :
    memDB.QueryRowInt ⟨nipCountQuery, [.str nip]⟩ s
      = (.ok (countWhere (fun e => decide (e.NIP = nip)) s.employees), s) := by
  have h1 : ¬ nipCountQuery = existsQuery := by decide
  simp only [memDB, Store.queryRowInt, h1, if_false, if_true]

theorem memDB_exists (s : Store) (id : Int) :
    memDB.QueryRowInt ⟨existsQuery, [.int id]⟩ s
      = (.ok (countWhere (fun e => decide (e.ID = id)) s.employees), s) := by
  simp only [memDB, Store.queryRowInt, if_true]

theorem memDB_emailOther (s : Store) (email : String) (id : Int) :
    memDB.QueryRowInt ⟨emailOtherQuery, [.str email, .int id]⟩ s
      = (.ok (countWhere (fun e => decide (e.Email = email) && decide (e.ID ≠ id))
          s.employees), s) := by
  have h1 : ¬ emailOtherQuery = existsQuery := by decide
  have h2 : ¬ emailOtherQuery = nipCountQuery := by decide
  have h3 : ¬ emailOtherQuery = emailCountQuery := by decide
  simp only [memDB, Store.queryRowInt, h1, h2, h3, if_false, if_true]

theorem memDB_softDelete (s : Store) (t : Time) (id : Int) :
    memDB.Exec ⟨softDeleteQuery, [.time t, .int id]⟩ s
      = (none, { s with employees := s.employees.map (softDeleted id t) }) := by
  simp only [memDB, Store.exec, if_true]
  rfl

set_option maxRecDepth 100000 in
theorem CreateEmployee_duplicate_nip_run (parseDate : String → Except String Time)
    (now : Time) (req : CreateEmployeeRequest) (s : Store) (log : List Stmt) (hireDate : Time)
    (hdate : parseDate req.HireDate = .ok hireDate)
    (hpos : countWhere (fun e => decide (e.NIP = req.NIP)) s.employees > 0) :
    CreateEmployee memDB parseDate now (.ok req) ⟨s, log⟩
      = (⟨409, NewErrorResponse "NIP already exists" "Employee with this NIP already exists"⟩,
          ⟨s, log ++ [⟨nipCountQuery, [.str req.NIP]⟩]⟩) := by
  unfold CreateEmployee
  simp only [hdate]
  have hq : World.queryRowInt memDB nipCountQuery [.str req.NIP] ⟨s, log⟩
      = (.ok (countWhere (fun e => decide (e.NIP = req.NIP)) s.employees),
          ⟨s, log ++ [⟨nipCountQuery, [.str req.NIP]⟩]⟩) := by
    simp only [World.queryRowInt, memDB_nipCount]
  rw [hq]
  simp only [hpos, if_true]

/-! ## Claims C15 to C18: the handlers over the store model -/

/-- C15: over the store model, for every create request that binds and whose hire date
parses, if a stored employee already has the request's NIP then `CreateEmployee`
answers 409 "NIP already exists", the only statement it sends is the NIP count, so no
`INSERT` is executed, and the store is left as it was, every row included. -/
theorem createEmployee_duplicate_nip (parseDate : String → Except String Time) (now : Time)
    (req : CreateEmployeeRequest) (s : Store) (log : List Stmt) (hireDate : Time)
    (hdate : parseDate req.HireDate = .ok hireDate)
    (hnip : ∃ e ∈ s.employees, e.NIP = req.NIP) :
    (CreateEmployee memDB parseDate now (.ok req) ⟨s, log⟩).1
        = ⟨409, NewErrorResponse "NIP already exists" "Employee with this NIP already exists"⟩
      ∧ (CreateEmployee memDB parseDate now (.ok req) ⟨s, log⟩).2.store = s
      ∧ (CreateEmployee memDB parseDate now (.ok req) ⟨s, log⟩).2.log
        = log ++ [⟨nipCountQuery, [.str req.NIP]⟩]
      ∧ (∀ st ∈ (CreateEmployee memDB parseDate now (.ok req) ⟨s, log⟩).2.log.drop log.length,
          ¬ st.isInsert) := by
  obtain ⟨e, he, hen⟩ := hnip
  have hpos : countWhere (fun e => decide (e.NIP = req.NIP)) s.employees > 0 :=
    countWhere_pos _ _ e he (by simp [hen])
  have hrun := CreateEmployee_duplicate_nip_run parseDate now req s log hireDate hdate hpos
  rw [hrun]
  refine ⟨rfl, rfl, rfl, ?_⟩
  intro st hst
  simp only [List.drop_left, List.mem_singleton] at hst
  subst hst
  show ¬ occursIn "INSERT" nipCountQuery
  decide

/-- Witness for C15: a store holding an employee with the NIP "198501012010" and a create
request with the same NIP. -/
theorem createEmployee_duplicate_nip_witness :
    (CreateEmployee memDB (fun _ => .ok 1577836800000000000) 1700000000000000000
        (.ok ⟨"198501012010", "Budi", "budi@company.com", "", "Engineer", "IT", 0,
          "2020-01-01"⟩)
        ⟨⟨[⟨1, "198501012010", "Ani", "ani@company.com", none, "Manager", "HR", none,
            1577836800000000000, true, 1600000000000000000, 1600000000000000000⟩], [], 2, 1,
            1700000000000000000⟩, []⟩).1
      = ⟨409, NewErrorResponse "NIP already exists" "Employee with this NIP already exists"⟩ :=
  (createEmployee_duplicate_nip (fun _ => .ok 1577836800000000000) 1700000000000000000
    ⟨"198501012010", "Budi", "budi@company.com", "", "Engineer", "IT", 0, "2020-01-01"⟩
    ⟨[⟨1, "198501012010", "Ani", "ani@company.com", none, "Manager", "HR", none,
        1577836800000000000, true, 1600000000000000000, 1600000000000000000⟩], [], 2, 1,
        1700000000000000000⟩ [] 1577836800000000000 rfl
    ⟨_, List.mem_singleton.mpr rfl, rfl⟩).1

theorem DeleteEmployee_run (now : Time) (idParam : String) (s : Store) (log : List Stmt)
    (e : Employee) (he : e ∈ s.employees) (hid : Atoi idParam = some e.ID) :
    DeleteEmployee memDB now idParam ⟨s, log⟩
      = (⟨200, NewSuccessResponse "Employee deleted successfully" .none⟩,
          ⟨{ s with employees := s.employees.map (softDeleted e.ID now) },
            log ++ [⟨existsQuery, [.int e.ID]⟩] ++ [⟨softDeleteQuery, [.time now, .int e.ID]⟩]⟩) := by
  have hpos : countWhere (fun r => decide (r.ID = e.ID)) s.employees > 0 :=
    countWhere_pos _ _ e he (by simp)
  have hne : ¬ countWhere (fun r => decide (r.ID = e.ID)) s.employees = 0 := by omega
  unfold DeleteEmployee
  simp only [hid, World.queryRowInt, memDB_exists, hne, if_false, World.exec, memDB_softDelete]

theorem softDeleted_mem (id : Int) (t : Time) (rows : List Employee) (e : Employee)
    (he : e ∈ rows) : softDeleted id t e ∈ rows.map (softDeleted id t) :=
  List.mem_map_of_mem _ he

theorem softDeleted_twice (id : Int) (t1 t2 : Time) (rows : List Employee) :
    (rows.map (softDeleted id t1)).map (softDeleted id t2) = rows.map (softDeleted id t2) := by
  rw [List.map_map]
  apply List.map_congr_left
  intro r _
  unfold softDeleted
  simp only [Function.comp]
  by_cases h : r.ID = id <;> simp [h]

/-- C16: over the store model, for the id of a stored employee, `DeleteEmployee` answers
200 the first and the second time it is called; after each call the table holds the same
number of rows, each row being the original one with, for the rows of that id,
`is_active = false` and `updated_at` set to the time of the call and every other field
unchanged; rows of other ids are unchanged. -/
theorem deleteEmployee_twice_soft (now1 now2 : Time) (idParam : String) (s : Store)
    (log : List Stmt) (e : Employee) (he : e ∈ s.employees)
    (hid : Atoi idParam = some e.ID) :
    (DeleteEmployee memDB now1 idParam ⟨s, log⟩).1
        = ⟨200, NewSuccessResponse "Employee deleted successfully" .none⟩
      ∧ (DeleteEmployee memDB now2 idParam (DeleteEmployee memDB now1 idParam ⟨s, log⟩).2).1
        = ⟨200, NewSuccessResponse "Employee deleted successfully" .none⟩
      ∧ (DeleteEmployee memDB now1 idParam ⟨s, log⟩).2.store.employees
        = s.employees.map (softDeleted e.ID now1)
      ∧ (DeleteEmployee memDB now2 idParam
          (DeleteEmployee memDB now1 idParam ⟨s, log⟩).2).2.store.employees
        = s.employees.map (softDeleted e.ID now2)
      ∧ (DeleteEmployee memDB now1 idParam ⟨s, log⟩).2.store.employees.length
        = s.employees.length
      ∧ (DeleteEmployee memDB now2 idParam
          (DeleteEmployee memDB now1 idParam ⟨s, log⟩).2).2.store.employees.length
        = s.employees.length
      ∧ ({ e with IsActive := false, UpdatedAt := now1 }
          ∈ (DeleteEmployee memDB now1 idParam ⟨s, log⟩).2.store.employees)
      ∧ ({ e with IsActive := false, UpdatedAt := now2 }
          ∈ (DeleteEmployee memDB now2 idParam
              (DeleteEmployee memDB now1 idParam ⟨s, log⟩).2).2.store.employees)
      ∧ (∀ (t : Time) (r : Employee),
          (softDeleted e.ID t r).ID = r.ID ∧ (softDeleted e.ID t r).NIP = r.NIP
            ∧ (softDeleted e.ID t r).Name = r.Name ∧ (softDeleted e.ID t r).Email = r.Email
            ∧ (softDeleted e.ID t r).Phone = r.Phone
            ∧ (softDeleted e.ID t r).Position = r.Position
            ∧ (softDeleted e.ID t r).Department = r.Department
            ∧ (softDeleted e.ID t r).Salary = r.Salary
            ∧ (softDeleted e.ID t r).HireDate = r.HireDate
            ∧ (softDeleted e.ID t r).CreatedAt = r.CreatedAt
            ∧ (r.ID = e.ID → (softDeleted e.ID t r).IsActive = false
                ∧ (softDeleted e.ID t r).UpdatedAt = t)
            ∧ (r.ID ≠ e.ID → softDeleted e.ID t r = r)) := by
  have h1 := DeleteEmployee_run now1 idParam s log e he hid
  have he1 : softDeleted e.ID now1 e ∈ s.employees.map (softDeleted e.ID now1) :=
    softDeleted_mem _ _ _ _ he
  have hid1 : (softDeleted e.ID now1 e).ID = e.ID := by
    unfold softDeleted
    simp
  have h2 := DeleteEmployee_run now2 idParam
    { s with employees := s.employees.map (softDeleted e.ID now1) }
    (log ++ [⟨existsQuery, [.int e.ID]⟩] ++ [⟨softDeleteQuery, [.time now1, .int e.ID]⟩])
    (softDeleted e.ID now1 e) he1 (by rw [hid1]; exact hid)
  rw [hid1] at h2
  simp only [softDeleted_twice] at h2
  rw [h1, h2]
  have hs : ∀ t, softDeleted e.ID t e = { e with IsActive := false, UpdatedAt := t } := by
    intro t
    unfold softDeleted
    simp
  refine ⟨rfl, rfl, rfl, rfl, by simp, by simp, ?_, ?_, ?_⟩
  · rw [← hs now1]
    exact softDeleted_mem _ _ _ _ he
  · rw [← hs now2]
    exact softDeleted_mem _ _ _ _ he
  · intro t r
    unfold softDeleted
    by_cases h : r.ID = e.ID <;> simp [h]

/-- Witness for C16: a store holding the employee 7, deleted at two successive instants. -/
theorem deleteEmployee_twice_soft_witness :
    (DeleteEmployee memDB 1700000000000000000 "7"
        ⟨⟨[⟨7, "198501012010", "Ani", "ani@company.com", none, "Manager", "HR", none,
            1577836800000000000, true, 1600000000000000000, 1600000000000000000⟩], [], 8, 1,
            1700000000000000000⟩, []⟩).1
        = ⟨200, NewSuccessResponse "Employee deleted successfully" .none⟩
      ∧ (DeleteEmployee memDB 1700000001000000000 "7"
          (DeleteEmployee memDB 1700000000000000000 "7"
            ⟨⟨[⟨7, "198501012010", "Ani", "ani@company.com", none, "Manager", "HR", none,
                1577836800000000000, true, 1600000000000000000, 1600000000000000000⟩], [], 8,
                1, 1700000000000000000⟩, []⟩).2).1
        = ⟨200, NewSuccessResponse "Employee deleted successfully" .none⟩ :=
  have h := deleteEmployee_twice_soft 1700000000000000000 1700000001000000000 "7"
    ⟨[⟨7, "198501012010", "Ani", "ani@company.com", none, "Manager", "HR", none,
        1577836800000000000, true, 1600000000000000000, 1600000000000000000⟩], [], 8, 1,
        1700000000000000000⟩ []
    ⟨7, "198501012010", "Ani", "ani@company.com", none, "Manager", "HR", none,
      1577836800000000000, true, 1600000000000000000, 1600000000000000000⟩
    (List.mem_singleton.mpr rfl) (by decide)
  ⟨h.1, h.2.1⟩

theorem memDB_readsPass_own_email (s : Store) (log : List Stmt) (e : Employee)
    (req : UpdateEmployeeRequest) (he : e ∈ s.employees)
    (huniq : ∀ a ∈ s.employees, ∀ b ∈ s.employees, a.Email = b.Email → a.ID = b.ID)
    (hown : req.Email = e.Email) :
    ReadsPass memDB ⟨s, log⟩ e.ID req := by
  have hpos : countWhere (fun r => decide (r.ID = e.ID)) s.employees > 0 :=
    countWhere_pos _ _ e he (by simp)
  have hne : countWhere (fun r => decide (r.ID = e.ID)) s.employees ≠ 0 := by omega
  refine ⟨countWhere (fun r => decide (r.ID = e.ID)) s.employees, by rw [memDB_exists], hne,
    fun _ => ⟨0, ?_, by decide⟩⟩
  rw [memDB_exists, memDB_emailOther]
  simp only
  rw [countWhere_eq_zero]
  intro a ha
  by_cases hae : a.Email = req.Email
  · have : a.ID = e.ID := huniq a ha e he (by rw [hae, hown])
    simp [this]
  · simp [hae]

theorem UpdateEmployee_conflict_run (now : Time) (idParam : String)
    (req : UpdateEmployeeRequest) (s : Store) (log : List Stmt) (e o : Employee)
    (he : e ∈ s.employees) (ho : o ∈ s.employees) (hne : o.ID ≠ e.ID)
    (hid : Atoi idParam = some e.ID) (hmail : req.Email = o.Email) (hcarries : req.Email ≠ "") :
    UpdateEmployee memDB now idParam (.ok req) ⟨s, log⟩
      = (⟨409, NewErrorResponse "Email already exists"
            "Another employee with this email already exists"⟩,
          ⟨s, log ++ [⟨existsQuery, [.int e.ID]⟩]
            ++ [⟨emailOtherQuery, [.str req.Email, .int e.ID]⟩]⟩) := by
  have hpos : countWhere (fun r => decide (r.ID = e.ID)) s.employees > 0 :=
    countWhere_pos _ _ e he (by simp)
  have hfound : ¬ countWhere (fun r => decide (r.ID = e.ID)) s.employees = 0 := by omega
  have hother : countWhere (fun r => decide (r.Email = req.Email) && decide (r.ID ≠ e.ID))
      s.employees > 0 :=
    countWhere_pos _ _ o ho (by simp [hmail, hne])
  unfold UpdateEmployee
  simp only [hid, World.queryRowInt, memDB_exists, hfound, if_false, memDB_emailOther, hother,
    if_true, hcarries, ne_eq, not_false_eq_true]

/-- C17: over the store model with unique e-mails, for a stored employee, an update
request carrying that employee's own e-mail is not answered 409 (and, the e-mail being
non-empty, its `UPDATE` is sent), while a request carrying the e-mail of a stored
employee with another id is answered 409 "Email already exists", sends no `UPDATE` and
leaves the store as it was. -/
theorem updateEmployee_email_conflict (now : Time) (idParam : String)
    (req : UpdateEmployeeRequest) (s : Store) (log : List Stmt) (e : Employee)
    (he : e ∈ s.employees) (hid : Atoi idParam = some e.ID)
    (huniq : ∀ a ∈ s.employees, ∀ b ∈ s.employees, a.Email = b.Email → a.ID = b.ID) :
    (req.Email = e.Email →
        (UpdateEmployee memDB now idParam (.ok req) ⟨s, log⟩).1.status ≠ 409
          ∧ (req.Email ≠ "" →
              ∃ st ∈ (UpdateEmployee memDB now idParam (.ok req) ⟨s, log⟩).2.log.drop
                  log.length, st.isUpdate))
      ∧ (∀ o ∈ s.employees, o.ID ≠ e.ID → req.Email = o.Email → req.Email ≠ "" →
          (UpdateEmployee memDB now idParam (.ok req) ⟨s, log⟩).1
              = ⟨409, NewErrorResponse "Email already exists"
                  "Another employee with this email already exists"⟩
            ∧ (∀ st ∈ (UpdateEmployee memDB now idParam (.ok req) ⟨s, log⟩).2.log.drop
                  log.length, ¬ st.isUpdate)
            ∧ (UpdateEmployee memDB now idParam (.ok req) ⟨s, log⟩).2.store = s) := by
  constructor
  · intro hown
    have hreads := memDB_readsPass_own_email s log e req he huniq hown
    rcases UpdateEmployee_run memDB now idParam e.ID req ⟨s, log⟩ hid hreads with
      ⟨hP, hresp, _⟩ | ⟨hP, hst, hlog⟩
    · refine ⟨by rw [hresp]; decide, fun hne => ?_⟩
      exfalso
      simp [providedAssignments, hne] at hP
    · refine ⟨by rcases hst with h | h <;> omega, fun _ => ?_⟩
      refine ⟨updateStmt (providedAssignments req) now e.ID, ?_, updateStmt_isUpdate _ _ _⟩
      rw [hlog]
      simp only [List.append_assoc, List.drop_left]
      simp
  · intro o ho hne hmail hcarries
    rw [UpdateEmployee_conflict_run now idParam req s log e o he ho hne hid hmail hcarries]
    refine ⟨rfl, ?_, rfl⟩
    intro st hst
    simp only [List.append_assoc, List.drop_left, List.mem_append, List.mem_singleton] at hst
    rcases hst with h | h
    · subst h
      show ¬ ("UPDATE".toList <+: existsQuery.toList)
      decide
    · subst h
      show ¬ ("UPDATE".toList <+: emailOtherQuery.toList)
      decide

/-- The e-mails of the example store, the employees 1 (ani@company.com) and 2
(budi@company.com), are unique. -/
theorem exampleStore_unique :
    ∀ a ∈ [(⟨1, "198501012010", "Ani", "ani@company.com", none, "Manager", "HR", none,
              1577836800000000000, true, 1600000000000000000, 1600000000000000000⟩ : Employee),
            ⟨2, "199002022015", "Budi", "budi@company.com", none, "Engineer", "IT", none,
              1577836800000000000, true, 1600000000000000000, 1600000000000000000⟩],
      ∀ b ∈ [(⟨1, "198501012010", "Ani", "ani@company.com", none, "Manager", "HR", none,
              1577836800000000000, true, 1600000000000000000, 1600000000000000000⟩ : Employee),
            ⟨2, "199002022015", "Budi", "budi@company.com", none, "Engineer", "IT", none,
              1577836800000000000, true, 1600000000000000000, 1600000000000000000⟩],
      a.Email = b.Email → a.ID = b.ID := by
  intro a ha b hb hab
  simp only [List.mem_cons, List.mem_singleton, List.not_mem_nil, or_false] at ha hb
  rcases ha with rfl | rfl <;> rcases hb with rfl | rfl <;> first | rfl | (exfalso; revert hab; decide)

/-- Witness for C17: in a store holding the employees 1 (ani@company.com) and 2
(budi@company.com), an update of employee 1 carrying budi@company.com is answered 409,
an update of employee 1 carrying ani@company.com is not. -/
theorem updateEmployee_email_conflict_witness :
    (UpdateEmployee memDB 1700000000000000000 "1"
        (.ok ⟨"", "budi@company.com", "", "", "", 0, none⟩)
        ⟨⟨[⟨1, "198501012010", "Ani", "ani@company.com", none, "Manager", "HR", none,
              1577836800000000000, true, 1600000000000000000, 1600000000000000000⟩,
            ⟨2, "199002022015", "Budi", "budi@company.com", none, "Engineer", "IT", none,
              1577836800000000000, true, 1600000000000000000, 1600000000000000000⟩],
            [], 3, 1, 1700000000000000000⟩, []⟩).1
        = ⟨409, NewErrorResponse "Email already exists"
            "Another employee with this email already exists"⟩
      ∧ (UpdateEmployee memDB 1700000000000000000 "1"
        (.ok ⟨"", "ani@company.com", "", "", "", 0, none⟩)
        ⟨⟨[⟨1, "198501012010", "Ani", "ani@company.com", none, "Manager", "HR", none,
              1577836800000000000, true, 1600000000000000000, 1600000000000000000⟩,
            ⟨2, "199002022015", "Budi", "budi@company.com", none, "Engineer", "IT", none,
              1577836800000000000, true, 1600000000000000000, 1600000000000000000⟩],
            [], 3, 1, 1700000000000000000⟩, []⟩).1.status ≠ 409 :=
  ⟨((updateEmployee_email_conflict 1700000000000000000 "1"
      ⟨"", "budi@company.com", "", "", "", 0, none⟩
      ⟨[⟨1, "198501012010", "Ani", "ani@company.com", none, "Manager", "HR", none,
            1577836800000000000, true, 1600000000000000000, 1600000000000000000⟩,
          ⟨2, "199002022015", "Budi", "budi@company.com", none, "Engineer", "IT", none,
            1577836800000000000, true, 1600000000000000000, 1600000000000000000⟩],
          [], 3, 1, 1700000000000000000⟩ []
      ⟨1, "198501012010", "Ani", "ani@company.com", none, "Manager", "HR", none,
        1577836800000000000, true, 1600000000000000000, 1600000000000000000⟩
      (List.mem_cons_self _ _) (by decide) exampleStore_unique).2
      ⟨2, "199002022015", "Budi", "budi@company.com", none, "Engineer", "IT", none,
        1577836800000000000, true, 1600000000000000000, 1600000000000000000⟩
      (List.mem_cons_of_mem _ (List.mem_singleton.mpr rfl)) (by decide) rfl (by decide)).1,
    ((updateEmployee_email_conflict 1700000000000000000 "1"
      ⟨"", "ani@company.com", "", "", "", 0, none⟩
      ⟨[⟨1, "198501012010", "Ani", "ani@company.com", none, "Manager", "HR", none,
            1577836800000000000, true, 1600000000000000000, 1600000000000000000⟩,
          ⟨2, "199002022015", "Budi", "budi@company.com", none, "Engineer", "IT", none,
            1577836800000000000, true, 1600000000000000000, 1600000000000000000⟩],
          [], 3, 1, 1700000000000000000⟩ []
      ⟨1, "198501012010", "Ani", "ani@company.com", none, "Manager", "HR", none,
        1577836800000000000, true, 1600000000000000000, 1600000000000000000⟩
      (List.mem_cons_self _ _) (by decide) exampleStore_unique).1 rfl).1⟩

theorem CreateDefaultUser_run (s : Store) (log : List Stmt)
    (hfresh : ∀ u ∈ s.users, u.Username ≠ "admin" ∧ u.Email ≠ "admin@company.com") :
    CreateDefaultUser memDB ⟨s, log⟩
      = (none,
          ⟨⟨s.employees, s.users ++ [⟨s.nextUserID, "admin", "admin@company.com",
                defaultHashedPassword, s.clock, s.clock⟩], s.nextEmployeeID,
              s.nextUserID + 1, s.clock⟩,
            log ++ [⟨userCountQuery, [.str "admin"]⟩]
              ++ [⟨insertDefaultUserQuery,
                  [.str "admin", .str "admin@company.com", .str defaultHashedPassword]⟩]⟩) := by
  have h1 : ¬ userCountQuery = existsQuery := by decide
  have h2 : ¬ userCountQuery = nipCountQuery := by decide
  have h3 : ¬ userCountQuery = emailCountQuery := by decide
  have h4 : ¬ userCountQuery = emailOtherQuery := by decide
  have h5 : ¬ insertDefaultUserQuery = softDeleteQuery := by decide
  have hcount : countWhere (fun u => decide (u.Username = "admin")) s.users = 0 :=
    countWhere_eq_zero _ _ (fun u hu => by simp [(hfresh u hu).1])
  have hany : s.users.any
      (fun u => decide (u.Username = "admin") || decide (u.Email = "admin@company.com"))
      = false := by
    rw [List.any_eq_false]
    intro u hu
    simp [(hfresh u hu).1, (hfresh u hu).2]
  have hc : ¬ (0 : Int) > 0 := by decide
  simp only [CreateDefaultUser, World.queryRowInt, memDB, Store.queryRowInt, h1, h2, h3, h4,
    if_false, if_true, hcount, hc, World.exec, Store.exec, h5, hany, Bool.false_eq_true]

theorem Login_default_user (compare : Bcrypt) (j : JWTManager) (now : Time) (s : Store)
    (log : List Stmt) (password : String)
    (hfresh : ∀ u ∈ s.users, u.Username ≠ "admin" ∧ u.Email ≠ "admin@company.com") :
    (Login memDB compare j now (.ok ⟨"admin", password⟩) (CreateDefaultUser memDB ⟨s, log⟩).2).1
      = match CheckPassword compare password defaultHashedPassword with
        | some _ =>
          ⟨401, NewErrorResponse "Authentication failed" "Invalid username or password"⟩
        | none =>
          ⟨200, NewSuccessResponse "Login successful"
            (.login ⟨signedHS256 j.secret
              [("user_id", .number (float64OfInt s.nextUserID)), ("username", .string "admin"),
                ("email", .string "admin@company.com"),
                ("exp", .number (float64OfInt (unix (now + j.expiry)))),
                ("iat", .number (float64OfInt (unix now)))],
              ⟨s.nextUserID, "admin", "admin@company.com"⟩, now + j.expiry⟩)⟩ := by
  rw [CreateDefaultUser_run s log hfresh]
  have hfind : (s.users ++ [(⟨s.nextUserID, "admin", "admin@company.com",
      defaultHashedPassword, s.clock, s.clock⟩ : User)]).find?
      (fun u => decide (u.Username = "admin"))
      = some ⟨s.nextUserID, "admin", "admin@company.com", defaultHashedPassword, s.clock,
          s.clock⟩ := by
    rw [List.find?_append]
    have hnone : s.users.find? (fun u => decide (u.Username = "admin")) = none := by
      rw [List.find?_eq_none]
      intro u hu
      simp [(hfresh u hu).1]
    rw [hnone]
    simp
  simp only [Login, World.queryRowUser, memDB, Store.queryRowUser, if_true, hfind]
  cases hcmp : CheckPassword compare password defaultHashedPassword with
  | some e => rfl
  | none =>
    simp only [GenerateToken_eq, User.ToUserInfo]

/-- C18, the behaviour of the code: after `CreateDefaultUser` on a store without an
`admin` user, the stored hash is the constant of the source, and `Login` with the
username `admin` authenticates exactly the passwords that
`bcrypt.CompareHashAndPassword` accepts for that constant; a password it rejects, as it
rejects "admin123", is answered 401. -/
theorem defaultUser_login_depends_on_hash (compare : Bcrypt) (j : JWTManager) (now : Time)
    (s : Store) (log : List Stmt) (password : String)
    (hfresh : ∀ u ∈ s.users, u.Username ≠ "admin" ∧ u.Email ≠ "admin@company.com") :
    (CreateDefaultUser memDB ⟨s, log⟩).1 = none
      ∧ (CreateDefaultUser memDB ⟨s, log⟩).2.store.users
        = s.users ++ [⟨s.nextUserID, "admin", "admin@company.com",
            "$2a$10$92IXUNpkjO0rOQ5byMi.Ye4oKoEa3Ro9llC/.og/at2.uheWG/igi", s.clock, s.clock⟩]
      ∧ ((Login memDB compare j now (.ok ⟨"admin", password⟩)
            (CreateDefaultUser memDB ⟨s, log⟩).2).1.status = 200
          ↔ CheckPassword compare password
              "$2a$10$92IXUNpkjO0rOQ5byMi.Ye4oKoEa3Ro9llC/.og/at2.uheWG/igi" = none)
      ∧ (CheckPassword compare password
            "$2a$10$92IXUNpkjO0rOQ5byMi.Ye4oKoEa3Ro9llC/.og/at2.uheWG/igi" ≠ none →
          (Login memDB compare j now (.ok ⟨"admin", password⟩)
            (CreateDefaultUser memDB ⟨s, log⟩).2).1
            = ⟨401, NewErrorResponse "Authentication failed"
                "Invalid username or password"⟩) := by
  have hl := Login_default_user compare j now s log password hfresh
  have hd : "$2a$10$92IXUNpkjO0rOQ5byMi.Ye4oKoEa3Ro9llC/.og/at2.uheWG/igi"
      = defaultHashedPassword := rfl
  rw [hd, hl]
  refine ⟨?_, ?_, ?_, ?_⟩
  · rw [CreateDefaultUser_run s log hfresh]
  · rw [CreateDefaultUser_run s log hfresh]
  · cases hcmp : CheckPassword compare password defaultHashedPassword with
    | some e => simp
    | none => simp
  · intro hne
    obtain ⟨e, he⟩ := option_ne_none hne
    rw [he]

/-- Witness for C18: on the empty store, with a comparison that agrees with bcrypt on
the constant at "admin123" and "password", the login `admin`/`admin123` is answered 401
and the login `admin`/`password` is answered 200. -/
theorem defaultUser_login_depends_on_hash_witness :
    (Login memDB exampleBcrypt ⟨"default-secret-key", 86400000000000⟩ 1700000000000000000
        (.ok ⟨"admin", "admin123"⟩)
        (CreateDefaultUser memDB ⟨⟨[], [], 1, 1, 1700000000000000000⟩, []⟩).2).1
        = ⟨401, NewErrorResponse "Authentication failed" "Invalid username or password"⟩
      ∧ (Login memDB exampleBcrypt ⟨"default-secret-key", 86400000000000⟩ 1700000000000000000
        (.ok ⟨"admin", "password"⟩)
        (CreateDefaultUser memDB ⟨⟨[], [], 1, 1, 1700000000000000000⟩, []⟩).2).1.status = 200 :=
  ⟨(defaultUser_login_depends_on_hash exampleBcrypt ⟨"default-secret-key", 86400000000000⟩
      1700000000000000000 ⟨[], [], 1, 1, 1700000000000000000⟩ [] "admin123"
      (fun u hu => absurd hu (List.not_mem_nil u))).2.2.2 (by decide),
    (defaultUser_login_depends_on_hash exampleBcrypt ⟨"default-secret-key", 86400000000000⟩
      1700000000000000000 ⟨[], [], 1, 1, 1700000000000000000⟩ [] "password"
      (fun u hu => absurd hu (List.not_mem_nil u))).2.2.1.mpr (by decide)⟩

end GoCrud
